import Mathlib
/-
Verification development for the batch execution and context-cache lifecycle
engine of the ai-studio-like repository.

The embedding covers:
- the persisted data model (BatchSession / BatchFileItem) and the pure session
  helpers of src/services/batchRunService.ts (updateItemInSession,
  saveLocalBatchSession);
- the session builders of the bulk-run panel (folder import and restore import);
- a labeled small-step transition system for one execution of
  handleIntegratedRun (src/unnamed/part_002), covering cache preparation,
  the bounded-concurrency dispatch loop with retry and re-queueing
  (processItem), the emergency-stop handler (handleStop), and final teardown.

Machine integers do not occur in the modelled code paths; counters are Nat.
-/

namespace BatchEngine

/-- Item status, from the status union of BatchFileItem. -/
inductive Status where
  | pending
  | loading
  | success
  | error
deriving DecidableEq, Repr

/-- Token usage recorded on success (tokenUsage field of BatchFileItem). -/
structure TokenUsage where
  prompt : Nat
  candidates : Nat
deriving DecidableEq, Repr

/-- One question/answer item of a batch session (BatchFileItem). -/
structure BatchFileItem where
  id : String
  originalFileName : String
  question : String
  answer : String
  status : Status
  errorMsg : Option String := none
  tokenUsage : Option TokenUsage := none
deriving DecidableEq, Repr

/-- One batch session (BatchSession). -/
structure BatchSession where
  id : String
  name : String
  createdAt : Nat
  totalFiles : Nat
  completedFiles : Nat
  items : List BatchFileItem
  isFinished : Bool
  cacheNameUsed : Option String := none
deriving DecidableEq, Repr

/-- The partial update object passed to updateItemInSession
(a TS Partial of BatchFileItem restricted to the fields the call sites use:
status, answer, errorMsg, tokenUsage). A field set to some v means the key is
present in the update object and overrides the item field. -/
structure ItemUpdates where
  status : Option Status := none
  answer : Option String := none
  errorMsg : Option String := none
  tokenUsage : Option TokenUsage := none
deriving DecidableEq, Repr

/-- TS object spread: keys present in the update override the item fields. -/
def applyUpdates (item : BatchFileItem) (u : ItemUpdates) : BatchFileItem :=
  { item with
    status := u.status.getD item.status
    answer := u.answer.getD item.answer
    errorMsg := u.errorMsg.elim item.errorMsg some
    tokenUsage := u.tokenUsage.elim item.tokenUsage some }

/-- Count of items whose status is terminal (success or error); this is the
quantity updateItemInSession recomputes into completedFiles. -/
def completedCountOf (items : List BatchFileItem) : Nat :=
  (items.filter (fun i => i.status == Status.success || i.status == Status.error)).length

/-- updateItemInSession from src/services/batchRunService.ts (lines 94-111):
map the update over the matching item, then recompute completedFiles and
isFinished from the new item list. -/
def updateItemInSession (session : BatchSession) (itemId : String)
    (updates : ItemUpdates) : BatchSession :=
  let newItems := session.items.map
    (fun item => if item.id = itemId then applyUpdates item updates else item)
  let completedCount :=
    (newItems.filter (fun i => i.status == Status.success || i.status == Status.error)).length
  { session with
    items := newItems
    completedFiles := completedCount
    isFinished := completedCount == session.totalFiles }

/-- saveLocalBatchSession from src/services/batchRunService.ts (lines 18-39),
restricted to its pure list logic on the stored session list: replace the
entry with the same id in place, otherwise prepend (unshift); afterwards, if
the list holds more than 10 sessions, drop the last one (pop). -/
def saveLocalBatchSession (sessions : List BatchSession) (session : BatchSession) :
    List BatchSession :=
  let sessions1 :=
    match sessions.findIdx? (fun s => s.id == session.id) with
    | some index => sessions.set index session
    | none => session :: sessions
  if sessions1.length > 10 then sessions1.dropLast else sessions1

/-- The fresh session built by handleFolderSelect (src/unnamed/part_002 lines
102-128): every item pending, completedFiles zero, isFinished false. -/
def buildImportSession (newSessionId folderName : String) (createdAt : Nat)
    (files : List (String × String)) : BatchSession :=
  let newItems := (List.range files.length).zip files |>.map
    (fun p =>
      { id := newSessionId ++ "-" ++ toString p.1
        originalFileName := p.2.1
        question := p.2.2
        answer := ""
        status := Status.pending : BatchFileItem })
  { id := newSessionId
    name := folderName
    createdAt := createdAt
    totalFiles := newItems.length
    completedFiles := 0
    items := newItems
    isFinished := false }

/-- The derived-aggregate invariant of a session: completedFiles equals the
count of terminal items, and isFinished is exactly the test
completedFiles == totalFiles. -/
def SessionInv (sess : BatchSession) : Prop :=
  sess.completedFiles = completedCountOf sess.items ∧
  sess.isFinished = (sess.completedFiles == sess.totalFiles)

/-- Maximum retry count; hardcoded as the literal 5 in the re-queue check
of handleIntegratedRun (queueItem.retries < 5). -/
def maxRetries : Nat := 5

/-- A queue entry of the run loop: { item, retries }. Only the item id is
needed to drive updateItemInSession; the prompt text does not influence
control flow. -/
structure Ticket where
  itemId : String
  retries : Nat
deriving DecidableEq, Repr

/-- Phase of one handleIntegratedRun execution: cache preparation (before the
scheduling loop), the failed-initialization early return, the scheduling loop
itself, and the normal completion point after the loop. -/
inductive Phase where
  | prep
  | failed
  | scheduling
  | done
deriving DecidableEq, Repr

/-- Per-run configuration: the concurrency bound, the autoDeleteCache toggle,
and whether a context file was provided (so the run creates its own cache). -/
structure RunConfig where
  concurrency : Nat
  autoDelete : Bool
  withNewCache : Bool
deriving DecidableEq, Repr

/-- State of one handleIntegratedRun execution.

queue, running and backoff partition the live tickets: queue is the FIFO work
queue, running holds tickets whose Generate call is outstanding (their item was
just marked loading), and backoff holds tickets sitting in the retry delay of
the completion handler before being pushed back onto the queue (their pool
slot is still occupied, since the executing promise has not resolved yet).

generateCalls, teardownCalls, oldCacheDeletes, saveCalls and savedSessions
record the remote-operation and persistence calls the run has issued.
attempts is a ghost counter of dispatches per item id. -/
structure RunState where
  session : BatchSession
  queue : List Ticket
  running : List Ticket
  backoff : List Ticket
  aborted : Bool
  phase : Phase
  cacheName : Option String
  cacheReady : Bool
  createdInRun : Bool
  stopDone : Bool
  generateCalls : Nat
  teardownCalls : Nat
  oldCacheDeletes : Nat
  saveCalls : Nat
  savedSessions : List BatchSession
  attempts : String → Nat

/-- The state at the moment handleIntegratedRun is entered: cache0 is the
pre-existing active cache handle (contextCache.cacheName when status is
active), ready0 records whether that pre-existing handle ever completed a
warm-up wait. When the run brings a context file (cfg.withNewCache), the
handle it will use does not exist yet. -/
def initRunState (sess : BatchSession) (cache0 : Option String) (ready0 : Bool) :
    RunState :=
  { session := sess
    queue := []
    running := []
    backoff := []
    aborted := false
    phase := Phase.prep
    cacheName := cache0
    cacheReady := ready0
    createdInRun := false
    stopDone := false
    generateCalls := 0
    teardownCalls := 0
    oldCacheDeletes := 0
    saveCalls := 0
    savedSessions := []
    attempts := fun _ => 0 }

/-- Observable events of a run. -/
inductive Event where
  | prepDeleteOld
  | prepCreateOk (name : String)
  | prepCreateFail
  | prepWarmup
  | startScheduling
  | dispatch (t : Ticket)
  | dispatchAborted (t : Ticket)
  | generateOk (t : Ticket) (answer : String) (usage : TokenUsage)
  | generateFail (t : Ticket) (msg : String)
  | requeue (t : Ticket)
  | abort
  | stopDeleteCache
  | finishRun
deriving DecidableEq, Repr

/-- Best-effort deletion of the residue cache before creating the new one
(part_002 lines 154-162). -/
def prepDeleteOldPost (s : RunState) : RunState :=
  { s with oldCacheDeletes := s.oldCacheDeletes + 1 }

/-- onCreateCache resolved with a handle (part_002 lines 165-170): the run
records the new handle as activeCacheName and in currentRunningCacheRef. -/
def prepCreateOkPost (s : RunState) (name : String) : RunState :=
  { s with cacheName := some name, createdInRun := true }

/-- onCreateCache returned null: the thrown error is caught and the whole run
returns before the scheduling loop (part_002 lines 166-168 and 191-196). -/
def prepCreateFailPost (s : RunState) : RunState :=
  { s with phase := Phase.failed }

/-- The fixed 5 second warm-up wait after cache creation (part_002 line 174). -/
def prepWarmupPost (s : RunState) : RunState :=
  { s with cacheReady := true }

/-- The queue seeded at the start of the scheduling loop (part_002 lines
203-206): all pending or error items, each with retries 0. -/
def seedQueue (items : List BatchFileItem) : List Ticket :=
  (items.filter (fun i => i.status == Status.pending || i.status == Status.error)).map
    (fun i => { itemId := i.id, retries := 0 })

/-- Entering the scheduling loop (part_002 lines 200-208): currentSessionState
is the active session with cacheNameUsed set to the active handle. -/
def startSchedulingPost (s : RunState) : RunState :=
  { s with
    phase := Phase.scheduling
    session := { s.session with cacheNameUsed := s.cacheName }
    queue := seedQueue s.session.items }

/-- Dispatch of the queue head into a free pool slot while not cancelled
(part_002 lines 277-284 and 212-232): the item is marked loading through
updateItemInSession and the Generate call is issued. -/
def dispatchPost (s : RunState) (t : Ticket) (rest : List Ticket) : RunState :=
  { s with
    queue := rest
    session := updateItemInSession s.session t.itemId { status := some Status.loading }
    running := s.running ++ [t]
    generateCalls := s.generateCalls + 1
    attempts := fun id => if id = t.itemId then s.attempts id + 1 else s.attempts id }

/-- Dispatch of the queue head after cancellation was observed during the
fill loop (part_002 line 214): processItem returns false immediately, no
Generate call is issued and no status changes; the completion handler then
routes the ticket into the retry path (lines 285-297). -/
def dispatchAbortedPost (s : RunState) (t : Ticket) (rest : List Ticket) : RunState :=
  { s with
    queue := rest
    backoff :=
      if t.retries < maxRetries then
        s.backoff ++ [{ itemId := t.itemId, retries := t.retries + 1 }]
      else s.backoff }

/-- The Generate call of a running ticket resolved successfully (part_002
lines 226-251): the item is recorded success; the session is pushed to
setSessions and saveLocalBatchSession only when not cancelled. -/
def generateOkPost (s : RunState) (t : Ticket) (ans : String) (u : TokenUsage) :
    RunState :=
  let newSession := updateItemInSession s.session t.itemId
    { status := some Status.success, answer := some ans, tokenUsage := some u }
  { s with
    session := newSession
    running := s.running.erase t
    saveCalls := if s.aborted then s.saveCalls else s.saveCalls + 1
    savedSessions := if s.aborted then s.savedSessions else newSession :: s.savedSessions }

/-- The Generate call of a running ticket rejected (part_002 lines 253-266 and
284-297): unless cancelled, the item is recorded error with the failure
message; the completion handler then either parks the incremented ticket in
the backoff delay (retries below the cap) or drops it. No save happens. -/
def generateFailPost (s : RunState) (t : Ticket) (msg : String) : RunState :=
  { session :=
      if s.aborted then s.session
      else updateItemInSession s.session t.itemId
        { status := some Status.error, errorMsg := some msg }
    queue := s.queue
    running := s.running.erase t
    backoff :=
      if t.retries < maxRetries then
        s.backoff ++ [{ itemId := t.itemId, retries := t.retries + 1 }]
      else s.backoff
    aborted := s.aborted
    phase := s.phase
    cacheName := s.cacheName
    cacheReady := s.cacheReady
    createdInRun := s.createdInRun
    stopDone := s.stopDone
    generateCalls := s.generateCalls
    teardownCalls := s.teardownCalls
    oldCacheDeletes := s.oldCacheDeletes
    saveCalls := s.saveCalls
    savedSessions := s.savedSessions
    attempts := s.attempts }

/-- The backoff delay of a parked ticket elapsed (part_002 lines 292-293):
the ticket is pushed to the back of the queue and its pool slot frees. -/
def requeuePost (s : RunState) (t : Ticket) : RunState :=
  { s with
    backoff := s.backoff.erase t
    queue := s.queue ++ [t] }

/-- The user pressed stop: abortControllerRef.abort() (part_002 line 77). -/
def abortPost (s : RunState) : RunState :=
  { s with aborted := true }

/-- Step 2 of handleStop (part_002 lines 83-92): the cache recorded in
currentRunningCacheRef is deleted immediately, regardless of outstanding
executions. -/
def stopDeleteCachePost (s : RunState) : RunState :=
  { s with teardownCalls := s.teardownCalls + 1, stopDone := true }

/-- Normal completion after the loop drained without cancellation (part_002
lines 311-327): the cache is torn down once here exactly when autoDeleteCache
is set and a handle is active. -/
def finishRunPost (cfg : RunConfig) (s : RunState) : RunState :=
  { s with
    phase := Phase.done
    teardownCalls :=
      if cfg.autoDelete && s.cacheName.isSome then s.teardownCalls + 1
      else s.teardownCalls }

/-- Labeled small-step relation for one handleIntegratedRun execution,
including the concurrently runnable handleStop handler. -/
inductive Step (cfg : RunConfig) : RunState → Event → RunState → Prop where
  | prepDeleteOld (s : RunState)
      (hp : s.phase = Phase.prep) (hw : cfg.withNewCache = true)
      (hc : s.cacheName = none) :
      Step cfg s Event.prepDeleteOld (prepDeleteOldPost s)
  | prepCreateOk (s : RunState) (name : String)
      (hp : s.phase = Phase.prep) (hw : cfg.withNewCache = true)
      (hc : s.cacheName = none) :
      Step cfg s (Event.prepCreateOk name) (prepCreateOkPost s name)
  | prepCreateFail (s : RunState)
      (hp : s.phase = Phase.prep) (hw : cfg.withNewCache = true)
      (hc : s.cacheName = none) :
      Step cfg s Event.prepCreateFail (prepCreateFailPost s)
  | prepWarmup (s : RunState)
      (hp : s.phase = Phase.prep) (hcr : s.createdInRun = true) :
      Step cfg s Event.prepWarmup (prepWarmupPost s)
  | startScheduling (s : RunState)
      (hp : s.phase = Phase.prep) (ha : s.aborted = false)
      (hw : cfg.withNewCache = true → s.cacheReady = true) :
      Step cfg s Event.startScheduling (startSchedulingPost s)
  | dispatch (s : RunState) (t : Ticket) (rest : List Ticket)
      (hp : s.phase = Phase.scheduling) (ha : s.aborted = false)
      (hq : s.queue = t :: rest)
      (hroom : s.running.length + s.backoff.length < cfg.concurrency) :
      Step cfg s (Event.dispatch t) (dispatchPost s t rest)
  | dispatchAborted (s : RunState) (t : Ticket) (rest : List Ticket)
      (hp : s.phase = Phase.scheduling) (ha : s.aborted = true)
      (hq : s.queue = t :: rest)
      (hroom : s.running.length + s.backoff.length < cfg.concurrency) :
      Step cfg s (Event.dispatchAborted t) (dispatchAbortedPost s t rest)
  | generateOk (s : RunState) (t : Ticket) (ans : String) (u : TokenUsage)
      (hp : s.phase = Phase.scheduling) (hm : t ∈ s.running) :
      Step cfg s (Event.generateOk t ans u) (generateOkPost s t ans u)
  | generateFail (s : RunState) (t : Ticket) (msg : String)
      (hp : s.phase = Phase.scheduling) (hm : t ∈ s.running) :
      Step cfg s (Event.generateFail t msg) (generateFailPost s t msg)
  | requeue (s : RunState) (t : Ticket)
      (hp : s.phase = Phase.scheduling) (hm : t ∈ s.backoff) :
      Step cfg s (Event.requeue t) (requeuePost s t)
  | abort (s : RunState)
      (hp : s.phase = Phase.prep ∨ s.phase = Phase.scheduling)
      (ha : s.aborted = false) :
      Step cfg s Event.abort (abortPost s)
  | stopDeleteCache (s : RunState) (name : String)
      (hp : s.phase = Phase.prep ∨ s.phase = Phase.scheduling)
      (ha : s.aborted = true) (hc : s.cacheName = some name)
      (hd : s.stopDone = false) :
      Step cfg s Event.stopDeleteCache (stopDeleteCachePost s)
  | finishRun (s : RunState)
      (hp : s.phase = Phase.scheduling) (ha : s.aborted = false)
      (hq : s.queue = []) (hr : s.running = []) (hb : s.backoff = []) :
      Step cfg s Event.finishRun (finishRunPost cfg s)

/-- Reachability from a given initial state. -/
inductive Reachable (cfg : RunConfig) (init : RunState) : RunState → Prop where
  | refl : Reachable cfg init init
  | step (s s2 : RunState) (e : Event) :
      Reachable cfg init s → Step cfg s e s2 → Reachable cfg init s2

/-- A one-item session as handleFolderSelect builds it from one text file. -/
def sessA : BatchSession :=
  { id := "1", name := "F", createdAt := 0, totalFiles := 1, completedFiles := 0,
    items := [{ id := "1-0", originalFileName := "q.txt", question := "Q",
                answer := "", status := Status.pending }],
    isFinished := false }

/-- Concurrency 1, no auto-delete, no context file. -/
def cfgA : RunConfig := { concurrency := 1, autoDelete := false, withNewCache := false }

def tktA0 : Ticket := { itemId := "1-0", retries := 0 }

def stA0 : RunState := initRunState sessA none false

def stA1 : RunState := startSchedulingPost stA0

def stA2 : RunState := dispatchPost stA1 tktA0 []

def stA3 : RunState := generateFailPost stA2 tktA0 "503 overloaded"

def tktA1 : Ticket := { itemId := "1-0", retries := 1 }

def stA4 : RunState := requeuePost stA3 tktA1

def stA5 : RunState := dispatchPost stA4 tktA1 []

/-- Cancellation right after the first failure: the run ends with the item in
error after a single dispatch attempt. -/
def stB1 : RunState := abortPost stA3

def stB2 : RunState := requeuePost stB1 tktA1

/-- A successful one-item run: the item succeeds on the first attempt. -/
def stC1 : RunState := generateOkPost stA2 tktA0 "the answer" { prompt := 10, candidates := 20 }

/-- A two-item session as handleFolderSelect builds it. -/
def sessD : BatchSession :=
  { id := "2", name := "G", createdAt := 0, totalFiles := 2, completedFiles := 0,
    items := [{ id := "2-0", originalFileName := "a.txt", question := "A",
                answer := "", status := Status.pending },
              { id := "2-1", originalFileName := "b.txt", question := "B",
                answer := "", status := Status.pending }],
    isFinished := false }

def tktD0 : Ticket := { itemId := "2-0", retries := 0 }

def tktD1 : Ticket := { itemId := "2-1", retries := 0 }

def stD0 : RunState := initRunState sessD none false

def stD1 : RunState := startSchedulingPost stD0

def stD2 : RunState := dispatchPost stD1 tktD0 [tktD1]

/-- Emergency stop while item 2-0 is loading: the run is cancelled and the
session keeps the loading status; the UI re-enables the run button because
isFinished is false and isRunning was reset. -/
def stD3 : RunState := abortPost stD2

/-- A second run started on the stopped session: item 2-0 is still loading
from the cancelled run, and the new run dispatches item 2-1. -/
def stE0 : RunState := initRunState stD3.session none false

def stE1 : RunState := startSchedulingPost stE0

def stE2 : RunState := dispatchPost stE1 tktD1 []

/-- A run reusing a pre-existing active cache handle. -/
def stF0 : RunState := initRunState sessA (some "caches/abc") true

def stF1 : RunState := startSchedulingPost stF0

def stF2 : RunState := dispatchPost stF1 tktA0 []

/-- Emergency stop while the Generate call of item 1-0 is outstanding:
handleStop aborts and deletes the cache at once. -/
def stF3 : RunState := abortPost stF2

def stF4 : RunState := stopDeleteCachePost stF3

/-- A run reusing a cache handle created by the economy panel
(handleCreateCache in src/unnamed/part_003, lines 202-244): that path sets the
cache active as soon as createCache resolves, with no warm-up wait, so the
handle enters the run without any elapsed warm-up delay. -/
def stG0 : RunState := initRunState sessA (some "caches/panel") false

def stG1 : RunState := startSchedulingPost stG0

def stG2 : RunState := dispatchPost stG1 tktA0 []

/-- Concurrency 1, auto-delete, with a context file (the run creates its own
cache). -/
def cfgH : RunConfig := { concurrency := 1, autoDelete := true, withNewCache := true }

def stH0 : RunState := initRunState sessA none false

def stH1 : RunState := prepCreateOkPost stH0 "caches/new"

def stH2 : RunState := prepWarmupPost stH1

def stH3 : RunState := startSchedulingPost stH2

/-- Cache creation rejected (onCreateCache returned null): the run fails
during initialization. -/
def stI1 : RunState := prepCreateFailPost stH0

/-- The one-item run whose Generate call fails on all six attempts
(1 initial + 5 retries), continued from stA5 (the second dispatch). -/
def tktA2 : Ticket := { itemId := "1-0", retries := 2 }

def tktA3 : Ticket := { itemId := "1-0", retries := 3 }

def tktA4 : Ticket := { itemId := "1-0", retries := 4 }

def tktA5 : Ticket := { itemId := "1-0", retries := 5 }

def stK6 : RunState := generateFailPost stA5 tktA1 "503 overloaded"

def stK7 : RunState := requeuePost stK6 tktA2

def stK8 : RunState := dispatchPost stK7 tktA2 []

def stK9 : RunState := generateFailPost stK8 tktA2 "503 overloaded"

def stK10 : RunState := requeuePost stK9 tktA3

def stK11 : RunState := dispatchPost stK10 tktA3 []

def stK12 : RunState := generateFailPost stK11 tktA3 "503 overloaded"

def stK13 : RunState := requeuePost stK12 tktA4

def stK14 : RunState := dispatchPost stK13 tktA4 []

def stK15 : RunState := generateFailPost stK14 tktA4 "503 overloaded"

def stK16 : RunState := requeuePost stK15 tktA5

def stK17 : RunState := dispatchPost stK16 tktA5 []

def stK18 : RunState := generateFailPost stK17 tktA5 "503 overloaded"

def stK19 : RunState := finishRunPost cfgA stK18

/-- Count of items currently in loading status. -/
def loadingCountOf (items : List BatchFileItem) : Nat :=
  (items.filter (fun i => i.status == Status.loading)).length

/-- A status is terminal when it is success or error. -/
def isTerminal (st : Status) : Bool :=
  st == Status.success || st == Status.error

/-- All live tickets of a run state, in queue-running-backoff order. -/
def allTickets (s : RunState) : List Ticket :=
  s.queue ++ s.running ++ s.backoff

/-- The item ids of all live tickets. -/
def allTicketIds (s : RunState) : List String :=
  (allTickets s).map (fun t => t.itemId)

/-- Structural invariant of every run reachable from initRunState on a session
with nodup item ids. -/
structure Inv0 (cfg : RunConfig) (sess : BatchSession) (s : RunState) : Prop where
  itemIds : s.session.items.map (fun i => i.id) = sess.items.map (fun i => i.id)
  totalFiles : s.session.totalFiles = sess.totalFiles
  phasePre : s.phase = Phase.prep ∨ s.phase = Phase.failed →
    s.session = sess ∧ s.queue = [] ∧ s.running = [] ∧ s.backoff = [] ∧
    (∀ x, s.attempts x = 0)
  doneState : s.phase = Phase.done →
    s.queue = [] ∧ s.running = [] ∧ s.backoff = [] ∧ s.aborted = false
  slots : s.running.length + s.backoff.length ≤ cfg.concurrency
  ticketsNodup : (sess.items.map (fun i => i.id)).Nodup → (allTicketIds s).Nodup
  ticketsValid : ∀ t ∈ allTickets s, t.itemId ∈ s.session.items.map (fun i => i.id)
  ticketsRetries : ∀ t ∈ allTickets s, t.retries ≤ maxRetries
  runningLoading : s.aborted = false → ∀ t ∈ s.running,
    ∀ i ∈ s.session.items, i.id = t.itemId → i.status = Status.loading
  queueNotLoading : s.aborted = false → ∀ t, (t ∈ s.queue ∨ t ∈ s.backoff) →
    ∀ i ∈ s.session.items, i.id = t.itemId →
      i.status = Status.pending ∨ i.status = Status.error

/-- No live ticket references the given item id. -/
def NoTicketFor (s : RunState) (id : String) : Prop :=
  id ∉ (allTickets s).map (fun t => t.itemId)

/-- Exact correspondence between item statuses and live tickets during the
scheduling loop of a run whose session had no stale loading items. -/
def StatusTickets (s : RunState) : Prop :=
  ∀ i ∈ s.session.items,
    (i.status = Status.pending →
      ∃ t, t ∈ s.queue ∧ t.itemId = i.id ∧ t.retries = 0 ∧ s.attempts i.id = 0) ∧
    (i.status = Status.loading →
      ∃ t, t ∈ s.running ∧ t.itemId = i.id ∧ s.attempts i.id = t.retries + 1) ∧
    (i.status = Status.error →
      (∃ t, (t ∈ s.queue ∨ t ∈ s.backoff) ∧ t.itemId = i.id ∧
        s.attempts i.id = t.retries) ∨
      (s.attempts i.id = maxRetries + 1 ∧ NoTicketFor s i.id)) ∧
    (i.status = Status.success → NoTicketFor s i.id)

/-- Invariant of runs started on a session with nodup item ids and no stale
loading items: the status-ticket correspondence holds while not cancelled, and
the loading count never exceeds the concurrency bound. -/
structure InvClean (cfg : RunConfig) (s : RunState) : Prop where
  statusTickets : s.aborted = false →
    (s.phase = Phase.scheduling ∨ s.phase = Phase.done) → StatusTickets s
  loadingBound : loadingCountOf s.session.items ≤ cfg.concurrency

/-- True exactly for the event of a successfully resolved Generate call. -/
def isGenerateOk (e : Event) : Bool :=
  match e with
  | Event.generateOk _ _ _ => true
  | _ => false

theorem updateItemInSession_sessionInv (session : BatchSession) (itemId : String)
    (updates : ItemUpdates) : SessionInv (updateItemInSession session itemId updates) := by
  constructor <;> rfl

example :
    buildImportSession "9" "Folder" 0 [("a.txt", "what is x?")] =
      { id := "9", name := "Folder", createdAt := 0, totalFiles := 1,
        completedFiles := 0,
        items := [{ id := "9-0", originalFileName := "a.txt",
                    question := "what is x?", answer := "",
                    status := Status.pending }],
        isFinished := false } := by decide

theorem reach_stA1 : Reachable cfgA stA0 stA1 :=
  Reachable.step _ _ _ Reachable.refl
    (Step.startScheduling _ rfl rfl (fun h => by simp [cfgA] at h))

theorem reach_stA2 : Reachable cfgA stA0 stA2 :=
  Reachable.step _ _ _ reach_stA1
    (Step.dispatch _ tktA0 [] (by decide) (by decide) (by decide) (by decide))

theorem reach_stA3 : Reachable cfgA stA0 stA3 :=
  Reachable.step _ _ _ reach_stA2
    (Step.generateFail _ tktA0 "503 overloaded" (by decide) (by decide))

theorem reach_stA4 : Reachable cfgA stA0 stA4 :=
  Reachable.step _ _ _ reach_stA3
    (Step.requeue _ tktA1 (by decide) (by decide))

theorem reach_stA5 : Reachable cfgA stA0 stA5 :=
  Reachable.step _ _ _ reach_stA4
    (Step.dispatch _ tktA1 [] (by decide) (by decide) (by decide) (by decide))

example : stA3.session.items.map (fun i => i.status) = [Status.error] := by decide

example : completedCountOf stA4.session.items = 1 ∧
    completedCountOf stA5.session.items = 0 := by decide

theorem reach_stB2 : Reachable cfgA stA0 stB2 :=
  Reachable.step _ _ _
    (Reachable.step _ _ _ reach_stA3 (Step.abort _ (Or.inr (by decide)) (by decide)))
    (Step.requeue _ tktA1 (by decide) (by decide))

theorem reach_stC1 : Reachable cfgA stA0 stC1 :=
  Reachable.step _ _ _ reach_stA2
    (Step.generateOk _ tktA0 "the answer" { prompt := 10, candidates := 20 }
      (by decide) (by decide))

theorem reach_stD3 : Reachable cfgA stD0 stD3 :=
  Reachable.step _ _ _
    (Reachable.step _ _ _
      (Reachable.step _ _ _ Reachable.refl
        (Step.startScheduling _ rfl rfl (fun h => by simp [cfgA] at h)))
      (Step.dispatch _ tktD0 [tktD1] (by decide) (by decide) (by decide) (by decide)))
    (Step.abort _ (Or.inr (by decide)) (by decide))

theorem reach_stE2 : Reachable cfgA stE0 stE2 :=
  Reachable.step _ _ _
    (Reachable.step _ _ _ Reachable.refl
      (Step.startScheduling _ rfl rfl (fun h => by simp [cfgA] at h)))
    (Step.dispatch _ tktD1 [] (by decide) (by decide) (by decide) (by decide))

theorem reach_stF4 : Reachable cfgA stF0 stF4 :=
  Reachable.step _ _ _
    (Reachable.step _ _ _
      (Reachable.step _ _ _
        (Reachable.step _ _ _ Reachable.refl
          (Step.startScheduling _ rfl rfl (fun h => by simp [cfgA] at h)))
        (Step.dispatch _ tktA0 [] (by decide) (by decide) (by decide) (by decide)))
      (Step.abort _ (Or.inr (by decide)) (by decide)))
    (Step.stopDeleteCache _ "caches/abc" (Or.inr (by decide)) (by decide)
      (by decide) (by decide))

theorem reach_stG2 : Reachable cfgA stG0 stG2 :=
  Reachable.step _ _ _
    (Reachable.step _ _ _ Reachable.refl
      (Step.startScheduling _ rfl rfl (fun h => by simp [cfgA] at h)))
    (Step.dispatch _ tktA0 [] (by decide) (by decide) (by decide) (by decide))

theorem reach_stH3 : Reachable cfgH stH0 stH3 :=
  Reachable.step _ _ _
    (Reachable.step _ _ _
      (Reachable.step _ _ _ Reachable.refl
        (Step.prepCreateOk _ "caches/new" (by decide) (by decide) (by decide)))
      (Step.prepWarmup _ (by decide) (by decide)))
    (Step.startScheduling _ (by decide) (by decide) (fun _ => by decide))

theorem reach_stI1 : Reachable cfgH stH0 stI1 :=
  Reachable.step _ _ _ Reachable.refl
    (Step.prepCreateFail _ (by decide) (by decide) (by decide))

theorem reach_stK18 : Reachable cfgA stA0 stK18 :=
  Reachable.step _ _ _
    (Reachable.step _ _ _
      (Reachable.step _ _ _
        (Reachable.step _ _ _
          (Reachable.step _ _ _
            (Reachable.step _ _ _
              (Reachable.step _ _ _
                (Reachable.step _ _ _
                  (Reachable.step _ _ _
                    (Reachable.step _ _ _
                      (Reachable.step _ _ _
                        (Reachable.step _ _ _
                          (Reachable.step _ _ _ reach_stA5
                            (Step.generateFail _ tktA1 "503 overloaded"
                              (by decide) (by decide)))
                          (Step.requeue _ tktA2 (by decide) (by decide)))
                        (Step.dispatch _ tktA2 [] (by decide) (by decide)
                          (by decide) (by decide)))
                      (Step.generateFail _ tktA2 "503 overloaded"
                        (by decide) (by decide)))
                    (Step.requeue _ tktA3 (by decide) (by decide)))
                  (Step.dispatch _ tktA3 [] (by decide) (by decide)
                    (by decide) (by decide)))
                (Step.generateFail _ tktA3 "503 overloaded" (by decide) (by decide)))
              (Step.requeue _ tktA4 (by decide) (by decide)))
            (Step.dispatch _ tktA4 [] (by decide) (by decide) (by decide) (by decide)))
          (Step.generateFail _ tktA4 "503 overloaded" (by decide) (by decide)))
        (Step.requeue _ tktA5 (by decide) (by decide)))
      (Step.dispatch _ tktA5 [] (by decide) (by decide) (by decide) (by decide)))
    (Step.generateFail _ tktA5 "503 overloaded" (by decide) (by decide))

theorem reach_stK19 : Reachable cfgA stA0 stK19 :=
  Reachable.step _ _ _ reach_stK18
    (Step.finishRun _ (by decide) (by decide) (by decide) (by decide) (by decide))

example : stK19.phase = Phase.done ∧ stK19.attempts "1-0" = 6 ∧
    stK19.session.isFinished = true ∧ stK19.saveCalls = 0 ∧
    stK19.session.items.map (fun i => i.status) = [Status.error] := by decide

theorem completedCountOf_eq_filter (items : List BatchFileItem) :
    completedCountOf items = (items.filter (fun i => isTerminal i.status)).length := by
  simp [completedCountOf, isTerminal]

theorem applyUpdates_id (item : BatchFileItem) (u : ItemUpdates) :
    (applyUpdates item u).id = item.id := rfl

theorem updateItemInSession_items (sess : BatchSession) (iid : String) (u : ItemUpdates) :
    (updateItemInSession sess iid u).items =
      sess.items.map (fun item => if item.id = iid then applyUpdates item u else item) := rfl

theorem updateItemInSession_ids (sess : BatchSession) (iid : String) (u : ItemUpdates) :
    (updateItemInSession sess iid u).items.map (fun i => i.id) =
      sess.items.map (fun i => i.id) := by
  rw [updateItemInSession_items, List.map_map]
  apply List.map_congr_left
  intro a _
  by_cases h : a.id = iid <;> simp [h, applyUpdates_id]

theorem updateItemInSession_totalFiles (sess : BatchSession) (iid : String)
    (u : ItemUpdates) :
    (updateItemInSession sess iid u).totalFiles = sess.totalFiles := rfl

/-- If no item carries the updated id, updateItemInSession leaves the item
list unchanged. -/
theorem map_update_of_not_mem (items : List BatchFileItem) (iid : String)
    (u : ItemUpdates) (h : iid ∉ items.map (fun i => i.id)) :
    items.map (fun item => if item.id = iid then applyUpdates item u else item) = items := by
  induction items with
  | nil => rfl
  | cons a l ih =>
    simp only [List.map_cons, List.mem_cons, not_or] at h ⊢
    rcases h with ⟨h1, h2⟩
    rw [if_neg (by simpa [eq_comm] using h1), ih h2]

/-- Members of a list whose mapped ids are nodup and share an image are equal. -/
theorem eq_of_nodup_map {α β : Type} {l : List α} {f : α → β}
    (h : (l.map f).Nodup) {a b : α} (ha : a ∈ l) (hb : b ∈ l) (hf : f a = f b) :
    a = b := by
  by_contra hne
  have hpw : l.Pairwise (fun x y => f x ≠ f y) := List.pairwise_map.mp h
  exact (hpw.forall (fun x y hxy => (hxy.symm : f y ≠ f x)) ha hb hne) hf

theorem completedCountOf_cons (a : BatchFileItem) (l : List BatchFileItem) :
    completedCountOf (a :: l) =
      (if isTerminal a.status = true then 1 else 0) + completedCountOf l := by
  rw [completedCountOf_eq_filter, completedCountOf_eq_filter, List.filter_cons]
  by_cases h : isTerminal a.status = true <;> simp [h, Nat.add_comm]

theorem loadingCountOf_cons (a : BatchFileItem) (l : List BatchFileItem) :
    loadingCountOf (a :: l) =
      (if a.status = Status.loading then 1 else 0) + loadingCountOf l := by
  simp only [loadingCountOf, List.filter_cons]
  by_cases h : a.status = Status.loading <;> simp [h, Nat.add_comm]

/-- Mapping a function that can only destroy loading statuses does not
increase the loading count. -/
theorem loadingCount_map_le (items : List BatchFileItem) (f : BatchFileItem → BatchFileItem)
    (h : ∀ i ∈ items, (f i).status = Status.loading → i.status = Status.loading) :
    loadingCountOf (items.map f) ≤ loadingCountOf items := by
  induction items with
  | nil => simp [loadingCountOf]
  | cons a l ih =>
    have ha := h a (List.mem_cons_self a l)
    have hl : ∀ i ∈ l, (f i).status = Status.loading → i.status = Status.loading :=
      fun i hi => h i (List.mem_cons_of_mem a hi)
    rw [List.map_cons, loadingCountOf_cons, loadingCountOf_cons]
    have hrec := ih hl
    by_cases hfa : (f a).status = Status.loading
    · rw [if_pos hfa, if_pos (ha hfa)]
      omega
    · rw [if_neg hfa]
      by_cases haa : a.status = Status.loading
      · rw [if_pos haa]
        omega
      · rw [if_neg haa]
        omega

/-- Mapping a function that preserves terminal statuses does not decrease the
terminal count. -/
theorem completedCount_le_map (items : List BatchFileItem) (f : BatchFileItem → BatchFileItem)
    (h : ∀ i ∈ items, isTerminal i.status = true → isTerminal (f i).status = true) :
    completedCountOf items ≤ completedCountOf (items.map f) := by
  induction items with
  | nil => simp [completedCountOf]
  | cons a l ih =>
    have ha := h a (List.mem_cons_self a l)
    have hl : ∀ i ∈ l, isTerminal i.status = true → isTerminal (f i).status = true :=
      fun i hi => h i (List.mem_cons_of_mem a hi)
    rw [List.map_cons, completedCountOf_cons, completedCountOf_cons]
    have hrec := ih hl
    by_cases haa : isTerminal a.status = true
    · rw [if_pos haa, if_pos (ha haa)]
      omega
    · rw [if_neg haa]
      by_cases hfa : isTerminal (f a).status = true
      · rw [if_pos hfa]
        omega
      · rw [if_neg hfa]
        omega

/-- Exact bookkeeping of the terminal count across updateItemInSession when
item ids are nodup and a matching item exists. -/
theorem completedCount_map_update (items : List BatchFileItem) (iid : String)
    (u : ItemUpdates) (hnd : (items.map (fun i => i.id)).Nodup)
    (i : BatchFileItem) (hi : i ∈ items) (hid : i.id = iid) :
    completedCountOf (items.map
        (fun item => if item.id = iid then applyUpdates item u else item)) +
      (if isTerminal i.status = true then 1 else 0) =
    completedCountOf items +
      (if isTerminal (applyUpdates i u).status = true then 1 else 0) := by
  induction items with
  | nil => cases hi
  | cons a l ih =>
    rw [List.map_cons] at hnd ⊢
    have hnd2 := List.Nodup.of_cons hnd
    have hamem : a.id ∉ l.map (fun i => i.id) := (List.nodup_cons.mp hnd).1
    by_cases hcase : a.id = iid
    · have hieq : i = a := by
        rcases List.mem_cons.mp hi with h0 | h0
        · exact h0
        · exfalso
          have hmm : i.id ∈ l.map (fun i => i.id) := List.mem_map_of_mem (fun i => i.id) h0
          rw [hid, ← hcase] at hmm
          exact hamem hmm
      subst hieq
      have hnotm : iid ∉ l.map (fun i => i.id) := by
        rw [← hcase]
        exact hamem
      rw [if_pos hcase, map_update_of_not_mem l iid u hnotm,
        completedCountOf_cons, completedCountOf_cons]
      omega
    · have himem : i ∈ l := by
        rcases List.mem_cons.mp hi with h0 | h0
        · exact absurd (h0 ▸ hid) hcase
        · exact h0
      rw [if_neg hcase, completedCountOf_cons, completedCountOf_cons]
      have := ih hnd2 himem
      omega

theorem perm_extract_left {α : Type} (t : α) (q r b : List α) :
    List.Perm ((t :: q) ++ r ++ b) (t :: (q ++ r ++ b)) := by
  simp

theorem perm_extract_mid {α : Type} [DecidableEq α] (t : α) (q r b : List α)
    (h : t ∈ r) : List.Perm (q ++ r ++ b) (t :: (q ++ r.erase t ++ b)) := by
  have h1 : List.Perm (q ++ r ++ b) (q ++ (t :: r.erase t) ++ b) :=
    List.Perm.append_right b (List.Perm.append_left q (List.perm_cons_erase h))
  have h2 : q ++ (t :: r.erase t) ++ b = q ++ t :: (r.erase t ++ b) := by simp
  have h3 : List.Perm (q ++ t :: (r.erase t ++ b)) (t :: (q ++ (r.erase t ++ b))) :=
    List.perm_middle
  have h4 : t :: (q ++ (r.erase t ++ b)) = t :: (q ++ r.erase t ++ b) := by simp
  exact h4 ▸ (h1.trans (h2 ▸ h3))

theorem perm_extract_back {α : Type} [DecidableEq α] (t : α) (q r b : List α)
    (h : t ∈ b) : List.Perm (q ++ r ++ b) (t :: (q ++ r ++ b.erase t)) := by
  have h1 : List.Perm (q ++ r ++ b) ((q ++ r) ++ (t :: b.erase t)) :=
    List.Perm.append_left (q ++ r) (List.perm_cons_erase h)
  have h3 : List.Perm ((q ++ r) ++ t :: b.erase t) (t :: ((q ++ r) ++ b.erase t)) :=
    List.perm_middle
  exact h1.trans h3

theorem perm_snoc_mid {α : Type} (t : α) (q r b : List α) :
    List.Perm (q ++ (r ++ [t]) ++ b) (t :: (q ++ r ++ b)) := by
  have h2 : q ++ (r ++ [t]) ++ b = (q ++ r) ++ (t :: b) := by simp
  have h3 : List.Perm ((q ++ r) ++ t :: b) (t :: ((q ++ r) ++ b)) := List.perm_middle
  exact h2 ▸ h3

theorem perm_snoc_back {α : Type} (t : α) (q r b : List α) :
    List.Perm (q ++ r ++ (b ++ [t])) (t :: (q ++ r ++ b)) := by
  have h2 : q ++ r ++ (b ++ [t]) = (q ++ r ++ b) ++ [t] := by simp
  exact h2 ▸ List.perm_append_singleton t (q ++ r ++ b)

theorem perm_snoc_front {α : Type} (t : α) (q r b : List α) :
    List.Perm ((q ++ [t]) ++ r ++ b) (t :: (q ++ r ++ b)) := by
  have h2 : (q ++ [t]) ++ r ++ b = q ++ t :: (r ++ b) := by simp
  have h3 : List.Perm (q ++ t :: (r ++ b)) (t :: (q ++ (r ++ b))) := List.perm_middle
  have h4 : t :: (q ++ (r ++ b)) = t :: (q ++ r ++ b) := by simp
  exact h4 ▸ (h2 ▸ h3)

theorem inv0_init (cfg : RunConfig) (sess : BatchSession) (cache0 : Option String)
    (ready0 : Bool) : Inv0 cfg sess (initRunState sess cache0 ready0) := by
  constructor <;>
    simp [initRunState, allTickets, allTicketIds]

theorem allTickets_eq (s : RunState) :
    allTickets s = s.queue ++ s.running ++ s.backoff := rfl

/-- With nodup ticket ids, the id of the queue head occurs nowhere else. -/
theorem ticket_id_unique_queue (s : RunState) (t : Ticket) (rest : List Ticket)
    (hq : s.queue = t :: rest) (hnd : (allTicketIds s).Nodup) :
    t.itemId ∉ (rest ++ s.running ++ s.backoff).map (fun t2 => t2.itemId) := by
  have hperm : List.Perm (allTickets s) (t :: (rest ++ s.running ++ s.backoff)) := by
    rw [allTickets_eq, hq]
    exact perm_extract_left t rest s.running s.backoff
  have hnd0 : ((allTickets s).map (fun t2 => t2.itemId)).Nodup := hnd
  have hnd2 : ((t :: (rest ++ s.running ++ s.backoff)).map (fun t2 => t2.itemId)).Nodup :=
    ((hperm.map (fun t2 => t2.itemId)).nodup_iff).mp hnd0
  rw [List.map_cons, List.nodup_cons] at hnd2
  exact hnd2.1

/-- With nodup ticket ids, the id of a running ticket occurs nowhere else. -/
theorem ticket_id_unique_running (s : RunState) (t : Ticket)
    (hm : t ∈ s.running) (hnd : (allTicketIds s).Nodup) :
    t.itemId ∉ (s.queue ++ s.running.erase t ++ s.backoff).map (fun t2 => t2.itemId) := by
  have hperm : List.Perm (allTickets s) (t :: (s.queue ++ s.running.erase t ++ s.backoff)) := by
    rw [allTickets_eq]
    exact perm_extract_mid t s.queue s.running s.backoff hm
  have hnd0 : ((allTickets s).map (fun t2 => t2.itemId)).Nodup := hnd
  have hnd2 := ((hperm.map (fun t2 => t2.itemId)).nodup_iff).mp hnd0
  rw [List.map_cons, List.nodup_cons] at hnd2
  exact hnd2.1

/-- With nodup ticket ids, the id of a backoff ticket occurs nowhere else. -/
theorem ticket_id_unique_backoff (s : RunState) (t : Ticket)
    (hm : t ∈ s.backoff) (hnd : (allTicketIds s).Nodup) :
    t.itemId ∉ (s.queue ++ s.running ++ s.backoff.erase t).map (fun t2 => t2.itemId) := by
  have hperm : List.Perm (allTickets s) (t :: (s.queue ++ s.running ++ s.backoff.erase t)) := by
    rw [allTickets_eq]
    exact perm_extract_back t s.queue s.running s.backoff hm
  have hnd0 : ((allTickets s).map (fun t2 => t2.itemId)).Nodup := hnd
  have hnd2 := ((hperm.map (fun t2 => t2.itemId)).nodup_iff).mp hnd0
  rw [List.map_cons, List.nodup_cons] at hnd2
  exact hnd2.1

theorem phase_clash {s : RunState} {p q : Phase} (h1 : s.phase = p)
    (h2 : s.phase = q) (hne : p ≠ q) : False :=
  hne (h1.symm.trans h2)

theorem inv0_prepDeleteOld (cfg : RunConfig) (sess : BatchSession) (s : RunState)
    (h : Inv0 cfg sess s) (hp : s.phase = Phase.prep) :
    Inv0 cfg sess (prepDeleteOldPost s) := by
  obtain ⟨hi, ht, hpre, hdone, hs, hnd, hv, hr, hrl, hqnl⟩ := h
  exact ⟨hi, ht, fun _ => hpre (Or.inl hp),
    fun hd => absurd (hp.symm.trans hd) (by decide),
    hs, hnd, hv, hr, hrl, hqnl⟩

theorem inv0_prepCreateOk (cfg : RunConfig) (sess : BatchSession) (s : RunState)
    (name : String) (h : Inv0 cfg sess s) (hp : s.phase = Phase.prep) :
    Inv0 cfg sess (prepCreateOkPost s name) := by
  obtain ⟨hi, ht, hpre, hdone, hs, hnd, hv, hr, hrl, hqnl⟩ := h
  exact ⟨hi, ht, fun _ => hpre (Or.inl hp),
    fun hd => absurd (hp.symm.trans hd) (by decide),
    hs, hnd, hv, hr, hrl, hqnl⟩

theorem inv0_prepCreateFail (cfg : RunConfig) (sess : BatchSession) (s : RunState)
    (h : Inv0 cfg sess s) (hp : s.phase = Phase.prep) :
    Inv0 cfg sess (prepCreateFailPost s) := by
  obtain ⟨hi, ht, hpre, hdone, hs, hnd, hv, hr, hrl, hqnl⟩ := h
  refine ⟨hi, ht, fun _ => hpre (Or.inl hp), ?_, hs, hnd, hv, hr, hrl, hqnl⟩
  intro hd
  have hd2 : Phase.failed = Phase.done := hd
  exact absurd hd2 (by decide)

theorem inv0_prepWarmup (cfg : RunConfig) (sess : BatchSession) (s : RunState)
    (h : Inv0 cfg sess s) (hp : s.phase = Phase.prep) :
    Inv0 cfg sess (prepWarmupPost s) := by
  obtain ⟨hi, ht, hpre, hdone, hs, hnd, hv, hr, hrl, hqnl⟩ := h
  exact ⟨hi, ht, fun _ => hpre (Or.inl hp),
    fun hd => absurd (hp.symm.trans hd) (by decide),
    hs, hnd, hv, hr, hrl, hqnl⟩

theorem inv0_abort (cfg : RunConfig) (sess : BatchSession) (s : RunState)
    (h : Inv0 cfg sess s)
    (hp : s.phase = Phase.prep ∨ s.phase = Phase.scheduling) :
    Inv0 cfg sess (abortPost s) := by
  obtain ⟨hi, ht, hpre, hdone, hs, hnd, hv, hr, hrl, hqnl⟩ := h
  refine ⟨hi, ht, fun hx => hpre hx, ?_, hs, hnd, hv, hr, ?_, ?_⟩
  · intro hd
    rcases hp with hp | hp <;> exact absurd (hp.symm.trans hd) (by decide)
  · intro ha
    have ha2 : true = false := ha
    exact absurd ha2 (by decide)
  · intro ha
    have ha2 : true = false := ha
    exact absurd ha2 (by decide)

theorem inv0_stopDeleteCache (cfg : RunConfig) (sess : BatchSession) (s : RunState)
    (h : Inv0 cfg sess s)
    (hp : s.phase = Phase.prep ∨ s.phase = Phase.scheduling)
    (ha : s.aborted = true) :
    Inv0 cfg sess (stopDeleteCachePost s) := by
  obtain ⟨hi, ht, hpre, hdone, hs, hnd, hv, hr, hrl, hqnl⟩ := h
  refine ⟨hi, ht, fun hx => hpre hx, ?_, hs, hnd, hv, hr, ?_, ?_⟩
  · intro hd
    rcases hp with hp | hp <;> exact absurd (hp.symm.trans hd) (by decide)
  · intro ha2
    exact absurd (ha.symm.trans ha2) (by decide)
  · intro ha2
    exact absurd (ha.symm.trans ha2) (by decide)

theorem inv0_finishRun (cfg : RunConfig) (sess : BatchSession) (s : RunState)
    (h : Inv0 cfg sess s) (hp : s.phase = Phase.scheduling)
    (ha : s.aborted = false) (hq : s.queue = []) (hr2 : s.running = [])
    (hb : s.backoff = []) :
    Inv0 cfg sess (finishRunPost cfg s) := by
  obtain ⟨hi, ht, hpre, hdone, hs, hnd, hv, hr, hrl, hqnl⟩ := h
  refine ⟨hi, ht, ?_, ?_, hs, hnd, hv, hr, hrl, hqnl⟩
  · intro hx
    rcases hx with hx | hx
    · have hx2 : Phase.done = Phase.prep := hx
      exact absurd hx2 (by decide)
    · have hx2 : Phase.done = Phase.failed := hx
      exact absurd hx2 (by decide)
  · intro _
    exact ⟨hq, hr2, hb, ha⟩

theorem inv0_requeue (cfg : RunConfig) (sess : BatchSession) (s : RunState)
    (t : Ticket) (h : Inv0 cfg sess s) (hp : s.phase = Phase.scheduling)
    (hm : t ∈ s.backoff) :
    Inv0 cfg sess (requeuePost s t) := by
  obtain ⟨hi, ht, hpre, hdone, hs, hnd, hv, hr, hrl, hqnl⟩ := h
  have hperm : List.Perm (allTickets (requeuePost s t)) (allTickets s) := by
    rw [allTickets_eq, allTickets_eq]
    refine List.Perm.trans ?_ (perm_extract_back t s.queue s.running s.backoff hm).symm
    exact perm_snoc_front t s.queue s.running (s.backoff.erase t)
  refine ⟨hi, ht, ?_, ?_, ?_, ?_, ?_, ?_, ?_, ?_⟩
  · intro hx
    rcases hx with hx | hx <;> exact absurd (hp.symm.trans hx) (by decide)
  · intro hd
    exact absurd (hp.symm.trans hd) (by decide)
  · have := (List.erase_sublist t s.backoff).length_le
    simp only [requeuePost]
    omega
  · intro hnods
    have hnd2 : ((allTickets s).map (fun t2 => t2.itemId)).Nodup := hnd hnods
    exact ((hperm.map (fun t2 => t2.itemId)).nodup_iff).mpr hnd2
  · intro t2 hmem
    exact hv t2 (hperm.subset hmem)
  · intro t2 hmem
    exact hr t2 (hperm.subset hmem)
  · intro ha t2 hmem i hii hid
    exact hrl ha t2 hmem i hii hid
  · intro ha t2 hmem i hii hid
    rcases hmem with hmem | hmem
    · rcases List.mem_append.mp hmem with hmem | hmem
      · exact hqnl ha t2 (Or.inl hmem) i hii hid
      · have ht2 : t2 = t := List.mem_singleton.mp hmem
        exact hqnl ha t2 (Or.inr (ht2 ▸ hm)) i hii hid
    · exact hqnl ha t2 (Or.inr ((List.erase_sublist t s.backoff).subset hmem)) i hii hid

theorem inv0_startScheduling (cfg : RunConfig) (sess : BatchSession) (s : RunState)
    (h : Inv0 cfg sess s) (hnodup : (sess.items.map (fun i => i.id)).Nodup)
    (hp : s.phase = Phase.prep) (ha : s.aborted = false) :
    Inv0 cfg sess (startSchedulingPost s) := by
  obtain ⟨hi, ht, hpre, hdone, hs, hnd, hv, hr, hrl, hqnl⟩ := h
  obtain ⟨hsess, hq0, hr0, hb0, hat0⟩ := hpre (Or.inl hp)
  have hitems_nodup : (s.session.items.map (fun i => i.id)).Nodup := by
    rw [hi]
    exact hnodup
  refine ⟨hi, ht, ?_, ?_, ?_, ?_, ?_, ?_, ?_, ?_⟩
  · intro hx
    rcases hx with hx | hx
    · have hx2 : Phase.scheduling = Phase.prep := hx
      exact absurd hx2 (by decide)
    · have hx2 : Phase.scheduling = Phase.failed := hx
      exact absurd hx2 (by decide)
  · intro hd
    have hd2 : Phase.scheduling = Phase.done := hd
    exact absurd hd2 (by decide)
  · exact hs
  · intro _
    have heq : allTicketIds (startSchedulingPost s) =
        (s.session.items.filter
          (fun i => i.status == Status.pending || i.status == Status.error)).map
          (fun i => i.id) := by
      show ((seedQueue s.session.items ++ s.running ++ s.backoff).map
        (fun t => t.itemId)) = _
      rw [hr0, hb0]
      simp [seedQueue, List.map_map]
    rw [heq]
    exact hitems_nodup.sublist
      ((List.filter_sublist s.session.items).map (fun i => i.id))
  · intro t hmem
    have hmem2 : t ∈ seedQueue s.session.items := by
      have : t ∈ seedQueue s.session.items ++ s.running ++ s.backoff := hmem
      rw [hr0, hb0] at this
      simpa using this
    obtain ⟨j, hj, hjt⟩ := List.mem_map.mp hmem2
    have : t.itemId = j.id := by rw [← hjt]
    rw [this]
    exact List.mem_map_of_mem (fun i => i.id) (List.mem_of_mem_filter hj)
  · intro t hmem
    have hmem2 : t ∈ seedQueue s.session.items := by
      have : t ∈ seedQueue s.session.items ++ s.running ++ s.backoff := hmem
      rw [hr0, hb0] at this
      simpa using this
    obtain ⟨j, hj, hjt⟩ := List.mem_map.mp hmem2
    rw [← hjt]
    exact Nat.zero_le _
  · intro ha2 t hmem
    have hmem2 : t ∈ s.running := hmem
    rw [hr0] at hmem2
    cases hmem2
  · intro ha2 t hmem i hii hid
    have hmem2 : t ∈ seedQueue s.session.items := by
      rcases hmem with hmem | hmem
      · exact hmem
      · have hmem3 : t ∈ s.backoff := hmem
        rw [hb0] at hmem3
        cases hmem3
    obtain ⟨j, hj, hjt⟩ := List.mem_map.mp hmem2
    have hji : j ∈ s.session.items := (List.mem_filter.mp hj).1
    have hpj : (j.status == Status.pending || j.status == Status.error) = true :=
      (List.mem_filter.mp hj).2
    have hij : i = j := by
      apply eq_of_nodup_map hitems_nodup hii hji
      rw [hid, ← hjt]
    rw [hij]
    simpa using hpj

theorem inv0_dispatch (cfg : RunConfig) (sess : BatchSession) (s : RunState)
    (t : Ticket) (rest : List Ticket) (h : Inv0 cfg sess s)
    (hnodup : (sess.items.map (fun i => i.id)).Nodup)
    (hp : s.phase = Phase.scheduling) (ha : s.aborted = false)
    (hq : s.queue = t :: rest)
    (hroom : s.running.length + s.backoff.length < cfg.concurrency) :
    Inv0 cfg sess (dispatchPost s t rest) := by
  obtain ⟨hi, ht, hpre, hdone, hs, hnd, hv, hr, hrl, hqnl⟩ := h
  have hnd0 : (allTicketIds s).Nodup := hnd hnodup
  have hpre_eq : allTickets s = (t :: rest) ++ s.running ++ s.backoff := by
    rw [allTickets_eq, hq]
  have hperm : List.Perm (allTickets (dispatchPost s t rest)) (allTickets s) := by
    rw [hpre_eq]
    exact (perm_snoc_mid t rest s.running s.backoff).trans
      (perm_extract_left t rest s.running s.backoff).symm
  have huniq : t.itemId ∉ (rest ++ s.running ++ s.backoff).map (fun t2 => t2.itemId) :=
    ticket_id_unique_queue s t rest hq hnd0
  refine ⟨?_, ?_, ?_, ?_, ?_, ?_, ?_, ?_, ?_, ?_⟩
  · exact (updateItemInSession_ids s.session t.itemId _).trans hi
  · exact ht
  · intro hx
    rcases hx with hx | hx <;> exact absurd (hp.symm.trans hx) (by decide)
  · intro hd
    exact absurd (hp.symm.trans hd) (by decide)
  · show (s.running ++ [t]).length + s.backoff.length ≤ cfg.concurrency
    rw [List.length_append]
    simp only [List.length_singleton]
    omega
  · intro hnods
    have hnd1 : ((allTickets s).map (fun t2 => t2.itemId)).Nodup := hnd hnods
    exact ((hperm.map (fun t2 => t2.itemId)).nodup_iff).mpr hnd1
  · intro t2 hmem
    have hgoal : t2.itemId ∈ s.session.items.map (fun i => i.id) :=
      hv t2 (hperm.subset hmem)
    show t2.itemId ∈ (updateItemInSession s.session t.itemId
      { status := some Status.loading }).items.map (fun i => i.id)
    rw [updateItemInSession_ids]
    exact hgoal
  · intro t2 hmem
    exact hr t2 (hperm.subset hmem)
  · intro ha2 t2 hmem i hii hid
    obtain ⟨j, hj, hfj⟩ := List.mem_map.mp hii
    rcases List.mem_append.mp hmem with hmem | hmem
    · by_cases hjid : j.id = t.itemId
      · rw [← hfj, if_pos hjid]
        rfl
      · rw [if_neg hjid] at hfj
        rw [← hfj] at hid ⊢
        exact hrl ha t2 hmem j hj hid
    · have ht2 : t2 = t := List.mem_singleton.mp hmem
      by_cases hjid : j.id = t.itemId
      · rw [← hfj, if_pos hjid]
        rfl
      · rw [if_neg hjid] at hfj
        rw [← hfj] at hid
        rw [ht2] at hid
        exact absurd hid hjid
  · intro ha2 t2 hmem i hii hid
    have ht2mem : t2 ∈ rest ++ s.running ++ s.backoff := by
      rcases hmem with hmem | hmem
      · exact List.mem_append.mpr (Or.inl (List.mem_append.mpr (Or.inl hmem)))
      · exact List.mem_append.mpr (Or.inr hmem)
    have ht2ne : t2.itemId ≠ t.itemId := by
      intro hcontra
      apply huniq
      rw [← hcontra]
      exact List.mem_map_of_mem (fun t3 => t3.itemId) ht2mem
    obtain ⟨j, hj, hfj⟩ := List.mem_map.mp hii
    by_cases hjid : j.id = t.itemId
    · rw [← hfj, if_pos hjid] at hid
      have hj2 : j.id = t2.itemId := hid
      exact absurd (hj2.symm.trans hjid) ht2ne
    · rw [if_neg hjid] at hfj
      rw [← hfj] at hid ⊢
      refine hqnl ha t2 ?_ j hj hid
      rcases hmem with hmem | hmem
      · exact Or.inl (by rw [hq]; exact List.mem_cons_of_mem t hmem)
      · exact Or.inr hmem

theorem inv0_generateOk (cfg : RunConfig) (sess : BatchSession) (s : RunState)
    (t : Ticket) (ans : String) (u : TokenUsage) (h : Inv0 cfg sess s)
    (hnodup : (sess.items.map (fun i => i.id)).Nodup)
    (hp : s.phase = Phase.scheduling) (hm : t ∈ s.running) :
    Inv0 cfg sess (generateOkPost s t ans u) := by
  obtain ⟨hi, ht, hpre, hdone, hs, hnd, hv, hr, hrl, hqnl⟩ := h
  have hnd0 : (allTicketIds s).Nodup := hnd hnodup
  have hsub : List.Sublist (allTickets (generateOkPost s t ans u)) (allTickets s) :=
    ((List.Sublist.refl s.queue).append (List.erase_sublist t s.running)).append
      (List.Sublist.refl s.backoff)
  have huniq : t.itemId ∉ (s.queue ++ s.running.erase t ++ s.backoff).map
      (fun t2 => t2.itemId) := ticket_id_unique_running s t hm hnd0
  refine ⟨?_, ?_, ?_, ?_, ?_, ?_, ?_, ?_, ?_, ?_⟩
  · exact (updateItemInSession_ids s.session t.itemId _).trans hi
  · exact ht
  · intro hx
    rcases hx with hx | hx <;> exact absurd (hp.symm.trans hx) (by decide)
  · intro hd
    exact absurd (hp.symm.trans hd) (by decide)
  · have := (List.erase_sublist t s.running).length_le
    show (s.running.erase t).length + s.backoff.length ≤ cfg.concurrency
    omega
  · intro hnods
    show ((allTickets (generateOkPost s t ans u)).map (fun t2 => t2.itemId)).Nodup
    exact List.Nodup.sublist (hsub.map (fun t2 => t2.itemId)) (hnd hnods)
  · intro t2 hmem
    have hgoal : t2.itemId ∈ s.session.items.map (fun i => i.id) :=
      hv t2 (hsub.subset hmem)
    show t2.itemId ∈ (updateItemInSession s.session t.itemId
      { status := some Status.success, answer := some ans,
        tokenUsage := some u }).items.map (fun i => i.id)
    rw [updateItemInSession_ids]
    exact hgoal
  · intro t2 hmem
    exact hr t2 (hsub.subset hmem)
  · intro ha2 t2 hmem2 i hii hid
    have ha3 : s.aborted = false := ha2
    have hpre_mem : t2 ∈ s.running := (List.erase_sublist t s.running).subset hmem2
    have ht2ne : t2.itemId ≠ t.itemId := by
      intro hcontra
      apply huniq
      rw [← hcontra]
      exact List.mem_map_of_mem (fun t3 => t3.itemId)
        (List.mem_append.mpr (Or.inl (List.mem_append.mpr (Or.inr hmem2))))
    obtain ⟨j, hj, hfj⟩ := List.mem_map.mp hii
    by_cases hjid : j.id = t.itemId
    · rw [← hfj, if_pos hjid] at hid
      have hj2 : j.id = t2.itemId := hid
      exact absurd (hj2.symm.trans hjid) ht2ne
    · rw [if_neg hjid] at hfj
      rw [← hfj] at hid ⊢
      exact hrl ha3 t2 hpre_mem j hj hid
  · intro ha2 t2 hmem i hii hid
    have ha3 : s.aborted = false := ha2
    have ht2mem : t2 ∈ s.queue ++ s.running.erase t ++ s.backoff := by
      rcases hmem with hmem | hmem
      · exact List.mem_append.mpr (Or.inl (List.mem_append.mpr (Or.inl hmem)))
      · exact List.mem_append.mpr (Or.inr hmem)
    have ht2ne : t2.itemId ≠ t.itemId := by
      intro hcontra
      apply huniq
      rw [← hcontra]
      exact List.mem_map_of_mem (fun t3 => t3.itemId) ht2mem
    obtain ⟨j, hj, hfj⟩ := List.mem_map.mp hii
    by_cases hjid : j.id = t.itemId
    · rw [← hfj, if_pos hjid] at hid
      have hj2 : j.id = t2.itemId := hid
      exact absurd (hj2.symm.trans hjid) ht2ne
    · rw [if_neg hjid] at hfj
      rw [← hfj] at hid ⊢
      exact hqnl ha3 t2 hmem j hj hid

theorem inv0_dispatchAborted (cfg : RunConfig) (sess : BatchSession) (s : RunState)
    (t : Ticket) (rest : List Ticket) (h : Inv0 cfg sess s)
    (hnodup : (sess.items.map (fun i => i.id)).Nodup)
    (hp : s.phase = Phase.scheduling) (ha : s.aborted = true)
    (hq : s.queue = t :: rest)
    (hroom : s.running.length + s.backoff.length < cfg.concurrency) :
    Inv0 cfg sess (dispatchAbortedPost s t rest) := by
  obtain ⟨hi, ht, hpre, hdone, hs, hnd, hv, hr, hrl, hqnl⟩ := h
  have hpre_eq : allTickets s = (t :: rest) ++ s.running ++ s.backoff := by
    rw [allTickets_eq, hq]
  have htmem : t ∈ allTickets s := by
    rw [hpre_eq]
    exact List.mem_append.mpr (Or.inl (List.mem_append.mpr (Or.inl
      (List.mem_cons_self t rest))))
  refine ⟨hi, ht, ?_, ?_, ?_, ?_, ?_, ?_, ?_, ?_⟩
  · intro hx
    rcases hx with hx | hx <;> exact absurd (hp.symm.trans hx) (by decide)
  · intro hd
    exact absurd (hp.symm.trans hd) (by decide)
  · show s.running.length +
      (if t.retries < maxRetries then
        s.backoff ++ [{ itemId := t.itemId, retries := t.retries + 1 }]
      else s.backoff).length ≤ cfg.concurrency
    by_cases hret : t.retries < maxRetries
    · rw [if_pos hret, List.length_append]
      simp only [List.length_singleton]
      omega
    · rw [if_neg hret]
      exact hs
  · intro hnods
    have hnd1 : ((allTickets s).map (fun t2 => t2.itemId)).Nodup := hnd hnods
    by_cases hret : t.retries < maxRetries
    · have hshape2 : allTicketIds (dispatchAbortedPost s t rest) =
          (rest ++ s.running ++
            (s.backoff ++ [({ itemId := t.itemId, retries := t.retries + 1 } : Ticket)])).map
            (fun t2 => t2.itemId) := by
        show ((rest ++ s.running ++
            (if t.retries < maxRetries then
              s.backoff ++ [({ itemId := t.itemId, retries := t.retries + 1 } : Ticket)]
            else s.backoff)).map (fun t2 => t2.itemId)) =
          ((rest ++ s.running ++
            (s.backoff ++ [({ itemId := t.itemId, retries := t.retries + 1 } : Ticket)])).map
            (fun t2 => t2.itemId))
        rw [if_pos hret]
      have hp1 : List.Perm (allTicketIds (dispatchAbortedPost s t rest))
          (t.itemId :: (rest ++ s.running ++ s.backoff).map (fun t2 => t2.itemId)) := by
        rw [hshape2]
        exact (perm_snoc_back ({ itemId := t.itemId, retries := t.retries + 1 } : Ticket)
            rest s.running s.backoff).map (fun t2 => t2.itemId)
      have hp2 : List.Perm (allTicketIds s)
          (t.itemId :: (rest ++ s.running ++ s.backoff).map (fun t2 => t2.itemId)) := by
        show ((allTickets s).map (fun t2 => t2.itemId)).Perm _
        rw [hpre_eq]
        exact (perm_extract_left t rest s.running s.backoff).map (fun t2 => t2.itemId)
      exact ((hp1.trans hp2.symm).nodup_iff).mpr hnd1
    · have hshape : allTicketIds (dispatchAbortedPost s t rest) =
          (rest ++ s.running ++ s.backoff).map (fun t2 => t2.itemId) := by
        show ((rest ++ s.running ++
            (if t.retries < maxRetries then
              s.backoff ++ [({ itemId := t.itemId, retries := t.retries + 1 } : Ticket)]
            else s.backoff)).map (fun t2 => t2.itemId)) =
          ((rest ++ s.running ++ s.backoff).map (fun t2 => t2.itemId))
        rw [if_neg hret]
      rw [hshape]
      have hsub : List.Sublist (rest ++ s.running ++ s.backoff) (allTickets s) := by
        rw [hpre_eq]
        exact (((List.sublist_cons_self t rest).append
          (List.Sublist.refl s.running)).append (List.Sublist.refl s.backoff))
      exact List.Nodup.sublist (hsub.map (fun t2 => t2.itemId)) hnd1
  · intro t2 hmem
    have hmem2 : t2 ∈ rest ++ s.running ++
        (if t.retries < maxRetries then
          s.backoff ++ [{ itemId := t.itemId, retries := t.retries + 1 }]
        else s.backoff) := hmem
    by_cases hret : t.retries < maxRetries
    · rw [if_pos hret] at hmem2
      rcases List.mem_append.mp hmem2 with hmem3 | hmem3
      · rcases List.mem_append.mp hmem3 with hmem4 | hmem4
        · exact hv t2 (by rw [hpre_eq]; exact List.mem_append.mpr (Or.inl
            (List.mem_append.mpr (Or.inl (List.mem_cons_of_mem t hmem4)))))
        · exact hv t2 (by rw [hpre_eq]; exact List.mem_append.mpr (Or.inl
            (List.mem_append.mpr (Or.inr hmem4))))
      · rcases List.mem_append.mp hmem3 with hmem4 | hmem4
        · exact hv t2 (by rw [hpre_eq]; exact List.mem_append.mpr (Or.inr hmem4))
        · have ht2 : t2 = { itemId := t.itemId, retries := t.retries + 1 } :=
            List.mem_singleton.mp hmem4
          rw [ht2]
          exact hv t htmem
    · rw [if_neg hret] at hmem2
      rcases List.mem_append.mp hmem2 with hmem3 | hmem3
      · rcases List.mem_append.mp hmem3 with hmem4 | hmem4
        · exact hv t2 (by rw [hpre_eq]; exact List.mem_append.mpr (Or.inl
            (List.mem_append.mpr (Or.inl (List.mem_cons_of_mem t hmem4)))))
        · exact hv t2 (by rw [hpre_eq]; exact List.mem_append.mpr (Or.inl
            (List.mem_append.mpr (Or.inr hmem4))))
      · exact hv t2 (by rw [hpre_eq]; exact List.mem_append.mpr (Or.inr hmem3))
  · intro t2 hmem
    have hmem2 : t2 ∈ rest ++ s.running ++
        (if t.retries < maxRetries then
          s.backoff ++ [{ itemId := t.itemId, retries := t.retries + 1 }]
        else s.backoff) := hmem
    by_cases hret : t.retries < maxRetries
    · rw [if_pos hret] at hmem2
      rcases List.mem_append.mp hmem2 with hmem3 | hmem3
      · rcases List.mem_append.mp hmem3 with hmem4 | hmem4
        · exact hr t2 (by rw [hpre_eq]; exact List.mem_append.mpr (Or.inl
            (List.mem_append.mpr (Or.inl (List.mem_cons_of_mem t hmem4)))))
        · exact hr t2 (by rw [hpre_eq]; exact List.mem_append.mpr (Or.inl
            (List.mem_append.mpr (Or.inr hmem4))))
      · rcases List.mem_append.mp hmem3 with hmem4 | hmem4
        · exact hr t2 (by rw [hpre_eq]; exact List.mem_append.mpr (Or.inr hmem4))
        · have ht2 : t2 = { itemId := t.itemId, retries := t.retries + 1 } :=
            List.mem_singleton.mp hmem4
          rw [ht2]
          show t.retries + 1 ≤ maxRetries
          omega
    · rw [if_neg hret] at hmem2
      rcases List.mem_append.mp hmem2 with hmem3 | hmem3
      · rcases List.mem_append.mp hmem3 with hmem4 | hmem4
        · exact hr t2 (by rw [hpre_eq]; exact List.mem_append.mpr (Or.inl
            (List.mem_append.mpr (Or.inl (List.mem_cons_of_mem t hmem4)))))
        · exact hr t2 (by rw [hpre_eq]; exact List.mem_append.mpr (Or.inl
            (List.mem_append.mpr (Or.inr hmem4))))
      · exact hr t2 (by rw [hpre_eq]; exact List.mem_append.mpr (Or.inr hmem3))
  · intro ha2
    exact absurd (ha.symm.trans ha2) (by decide)
  · intro ha2
    exact absurd (ha.symm.trans ha2) (by decide)

theorem inv0_generateFail (cfg : RunConfig) (sess : BatchSession) (s : RunState)
    (t : Ticket) (msg : String) (h : Inv0 cfg sess s)
    (hnodup : (sess.items.map (fun i => i.id)).Nodup)
    (hp : s.phase = Phase.scheduling) (hm : t ∈ s.running) :
    Inv0 cfg sess (generateFailPost s t msg) := by
  obtain ⟨hi, ht, hpre, hdone, hs, hnd, hv, hr, hrl, hqnl⟩ := h
  have hnd0 : (allTicketIds s).Nodup := hnd hnodup
  have huniq : t.itemId ∉ (s.queue ++ s.running.erase t ++ s.backoff).map
      (fun t2 => t2.itemId) := ticket_id_unique_running s t hm hnd0
  have hids : (generateFailPost s t msg).session.items.map (fun i => i.id) =
      s.session.items.map (fun i => i.id) := by
    show (if s.aborted = true then s.session
      else updateItemInSession s.session t.itemId
        { status := some Status.error, errorMsg := some msg }).items.map
        (fun i => i.id) = s.session.items.map (fun i => i.id)
    by_cases habort : s.aborted = true
    · rw [if_pos habort]
    · rw [if_neg habort, updateItemInSession_ids]
  have htmem : t ∈ allTickets s :=
    List.mem_append.mpr (Or.inl (List.mem_append.mpr (Or.inr hm)))
  refine ⟨?_, ?_, ?_, ?_, ?_, ?_, ?_, ?_, ?_, ?_⟩
  · exact hids.trans hi
  · show (if s.aborted = true then s.session
      else updateItemInSession s.session t.itemId
        { status := some Status.error, errorMsg := some msg }).totalFiles =
      sess.totalFiles
    by_cases habort : s.aborted = true
    · rw [if_pos habort]
      exact ht
    · rw [if_neg habort]
      exact ht
  · intro hx
    rcases hx with hx | hx <;> exact absurd (hp.symm.trans hx) (by decide)
  · intro hd
    exact absurd (hp.symm.trans hd) (by decide)
  · show (s.running.erase t).length +
      (if t.retries < maxRetries then
        s.backoff ++ [{ itemId := t.itemId, retries := t.retries + 1 }]
      else s.backoff).length ≤ cfg.concurrency
    have hlen := List.length_erase_of_mem hm
    have hpos : 0 < s.running.length := List.length_pos_of_mem hm
    by_cases hret : t.retries < maxRetries
    · rw [if_pos hret, List.length_append]
      simp only [List.length_singleton]
      omega
    · rw [if_neg hret]
      omega
  · intro hnods
    have hnd1 : ((allTickets s).map (fun t2 => t2.itemId)).Nodup := hnd hnods
    by_cases hret : t.retries < maxRetries
    · have hshape2 : allTicketIds (generateFailPost s t msg) =
          (s.queue ++ s.running.erase t ++
            (s.backoff ++ [({ itemId := t.itemId, retries := t.retries + 1 } : Ticket)])).map
            (fun t2 => t2.itemId) := by
        show ((s.queue ++ s.running.erase t ++
            (if t.retries < maxRetries then
              s.backoff ++ [({ itemId := t.itemId, retries := t.retries + 1 } : Ticket)]
            else s.backoff)).map (fun t2 => t2.itemId)) =
          ((s.queue ++ s.running.erase t ++
            (s.backoff ++ [({ itemId := t.itemId, retries := t.retries + 1 } : Ticket)])).map
            (fun t2 => t2.itemId))
        rw [if_pos hret]
      have hp1 : List.Perm (allTicketIds (generateFailPost s t msg))
          (t.itemId :: (s.queue ++ s.running.erase t ++ s.backoff).map
            (fun t2 => t2.itemId)) := by
        rw [hshape2]
        exact (perm_snoc_back ({ itemId := t.itemId, retries := t.retries + 1 } : Ticket)
            s.queue (s.running.erase t) s.backoff).map (fun t2 => t2.itemId)
      have hp2 : List.Perm (allTicketIds s)
          (t.itemId :: (s.queue ++ s.running.erase t ++ s.backoff).map
            (fun t2 => t2.itemId)) := by
        show ((allTickets s).map (fun t2 => t2.itemId)).Perm
          (t.itemId :: (s.queue ++ s.running.erase t ++ s.backoff).map
            (fun t2 => t2.itemId))
        exact (perm_extract_mid t s.queue s.running s.backoff hm).map
          (fun t2 => t2.itemId)
      exact ((hp1.trans hp2.symm).nodup_iff).mpr hnd1
    · have hshape2 : allTicketIds (generateFailPost s t msg) =
          (s.queue ++ s.running.erase t ++ s.backoff).map (fun t2 => t2.itemId) := by
        show ((s.queue ++ s.running.erase t ++
            (if t.retries < maxRetries then
              s.backoff ++ [({ itemId := t.itemId, retries := t.retries + 1 } : Ticket)]
            else s.backoff)).map (fun t2 => t2.itemId)) =
          ((s.queue ++ s.running.erase t ++ s.backoff).map (fun t2 => t2.itemId))
        rw [if_neg hret]
      rw [hshape2]
      have hsub : List.Sublist (s.queue ++ s.running.erase t ++ s.backoff)
          (allTickets s) :=
        ((List.Sublist.refl s.queue).append (List.erase_sublist t s.running)).append
          (List.Sublist.refl s.backoff)
      exact List.Nodup.sublist (hsub.map (fun t2 => t2.itemId)) hnd1
  · intro t3 hmem
    rw [hids]
    have hmem2 : t3 ∈ s.queue ++ s.running.erase t ++
        (if t.retries < maxRetries then
          s.backoff ++ [({ itemId := t.itemId, retries := t.retries + 1 } : Ticket)]
        else s.backoff) := hmem
    have hback : ∀ t4, t4 ∈ s.queue ++ s.running.erase t ++ s.backoff →
        t4.itemId ∈ s.session.items.map (fun i => i.id) := by
      intro t4 hmem4
      have hsub : List.Sublist (s.queue ++ s.running.erase t ++ s.backoff)
          (allTickets s) :=
        ((List.Sublist.refl s.queue).append (List.erase_sublist t s.running)).append
          (List.Sublist.refl s.backoff)
      exact hv t4 (hsub.subset hmem4)
    by_cases hret : t.retries < maxRetries
    · rw [if_pos hret] at hmem2
      rcases List.mem_append.mp hmem2 with hmem3 | hmem3
      · exact hback t3 (List.mem_append.mpr (Or.inl hmem3))
      · rcases List.mem_append.mp hmem3 with hmem4 | hmem4
        · exact hback t3 (List.mem_append.mpr (Or.inr hmem4))
        · have ht3 : t3 = { itemId := t.itemId, retries := t.retries + 1 } :=
            List.mem_singleton.mp hmem4
          rw [ht3]
          exact hv t htmem
    · rw [if_neg hret] at hmem2
      exact hback t3 hmem2
  · intro t3 hmem
    have hmem2 : t3 ∈ s.queue ++ s.running.erase t ++
        (if t.retries < maxRetries then
          s.backoff ++ [({ itemId := t.itemId, retries := t.retries + 1 } : Ticket)]
        else s.backoff) := hmem
    have hsub : List.Sublist (s.queue ++ s.running.erase t ++ s.backoff)
        (allTickets s) :=
      ((List.Sublist.refl s.queue).append (List.erase_sublist t s.running)).append
        (List.Sublist.refl s.backoff)
    by_cases hret : t.retries < maxRetries
    · rw [if_pos hret] at hmem2
      rcases List.mem_append.mp hmem2 with hmem3 | hmem3
      · exact hr t3 (hsub.subset (List.mem_append.mpr (Or.inl hmem3)))
      · rcases List.mem_append.mp hmem3 with hmem4 | hmem4
        · exact hr t3 (hsub.subset (List.mem_append.mpr (Or.inr hmem4)))
        · have ht3 : t3 = { itemId := t.itemId, retries := t.retries + 1 } :=
            List.mem_singleton.mp hmem4
          rw [ht3]
          show t.retries + 1 ≤ maxRetries
          omega
    · rw [if_neg hret] at hmem2
      exact hr t3 (hsub.subset hmem2)
  · intro ha2 t3 hmem3 i hii hid
    have ha3 : s.aborted = false := ha2
    have hsess : (generateFailPost s t msg).session =
        updateItemInSession s.session t.itemId
          { status := some Status.error, errorMsg := some msg } := by
      show (if s.aborted = true then s.session
        else updateItemInSession s.session t.itemId
          { status := some Status.error, errorMsg := some msg }) =
        updateItemInSession s.session t.itemId
          { status := some Status.error, errorMsg := some msg }
      rw [if_neg (by rw [ha3]; exact Bool.false_ne_true)]
    rw [hsess] at hii
    have hpre_mem : t3 ∈ s.running := (List.erase_sublist t s.running).subset hmem3
    have ht3ne : t3.itemId ≠ t.itemId := by
      intro hcontra
      apply huniq
      rw [← hcontra]
      exact List.mem_map_of_mem (fun t4 => t4.itemId)
        (List.mem_append.mpr (Or.inl (List.mem_append.mpr (Or.inr hmem3))))
    obtain ⟨j, hj, hfj⟩ := List.mem_map.mp hii
    by_cases hjid : j.id = t.itemId
    · rw [← hfj, if_pos hjid] at hid
      have hj2 : j.id = t3.itemId := hid
      exact absurd (hj2.symm.trans hjid) ht3ne
    · rw [if_neg hjid] at hfj
      have hstat : i.status = j.status := by rw [← hfj]
      have hid2 : j.id = t3.itemId := by rw [← hfj] at hid; exact hid
      rw [hstat]
      exact hrl ha3 t3 hpre_mem j hj hid2
  · intro ha2 t3 hmem3 i hii hid
    have ha3 : s.aborted = false := ha2
    have hsess : (generateFailPost s t msg).session =
        updateItemInSession s.session t.itemId
          { status := some Status.error, errorMsg := some msg } := by
      show (if s.aborted = true then s.session
        else updateItemInSession s.session t.itemId
          { status := some Status.error, errorMsg := some msg }) =
        updateItemInSession s.session t.itemId
          { status := some Status.error, errorMsg := some msg }
      rw [if_neg (by rw [ha3]; exact Bool.false_ne_true)]
    rw [hsess] at hii
    obtain ⟨j, hj, hfj⟩ := List.mem_map.mp hii
    have hmem4 : t3 ∈ s.queue ∨ t3 ∈ (if t.retries < maxRetries then
        s.backoff ++ [({ itemId := t.itemId, retries := t.retries + 1 } : Ticket)]
      else s.backoff) := hmem3
    by_cases hret : t.retries < maxRetries
    · rw [if_pos hret] at hmem4
      have hcases : (t3 ∈ s.queue ∨ t3 ∈ s.backoff) ∨
          t3 = ({ itemId := t.itemId, retries := t.retries + 1 } : Ticket) := by
        rcases hmem4 with hmem5 | hmem5
        · exact Or.inl (Or.inl hmem5)
        · rcases List.mem_append.mp hmem5 with hmem6 | hmem6
          · exact Or.inl (Or.inr hmem6)
          · exact Or.inr (List.mem_singleton.mp hmem6)
      rcases hcases with hcases | hcases
      · have ht3ne : t3.itemId ≠ t.itemId := by
          intro hcontra
          apply huniq
          rw [← hcontra]
          have hmm : t3 ∈ s.queue ++ s.running.erase t ++ s.backoff := by
            rcases hcases with hmem7 | hmem7
            · exact List.mem_append.mpr (Or.inl (List.mem_append.mpr (Or.inl hmem7)))
            · exact List.mem_append.mpr (Or.inr hmem7)
          exact List.mem_map_of_mem (fun t4 => t4.itemId) hmm
        by_cases hjid : j.id = t.itemId
        · rw [← hfj, if_pos hjid] at hid
          have hj2 : j.id = t3.itemId := hid
          exact absurd (hj2.symm.trans hjid) ht3ne
        · rw [if_neg hjid] at hfj
          have hstat : i.status = j.status := by rw [← hfj]
          have hid2 : j.id = t3.itemId := by rw [← hfj] at hid; exact hid
          rw [hstat]
          exact hqnl ha3 t3 hcases j hj hid2
      · by_cases hjid : j.id = t.itemId
        · right
          rw [← hfj, if_pos hjid]
          rfl
        · rw [if_neg hjid] at hfj
          have hid2 : j.id = t3.itemId := by rw [← hfj] at hid; exact hid
          rw [hcases] at hid2
          exact absurd hid2 hjid
    · rw [if_neg hret] at hmem4
      have ht3ne : t3.itemId ≠ t.itemId := by
        intro hcontra
        apply huniq
        rw [← hcontra]
        have hmm : t3 ∈ s.queue ++ s.running.erase t ++ s.backoff := by
          rcases hmem4 with hmem7 | hmem7
          · exact List.mem_append.mpr (Or.inl (List.mem_append.mpr (Or.inl hmem7)))
          · exact List.mem_append.mpr (Or.inr hmem7)
        exact List.mem_map_of_mem (fun t4 => t4.itemId) hmm
      by_cases hjid : j.id = t.itemId
      · rw [← hfj, if_pos hjid] at hid
        have hj2 : j.id = t3.itemId := hid
        exact absurd (hj2.symm.trans hjid) ht3ne
      · rw [if_neg hjid] at hfj
        have hstat : i.status = j.status := by rw [← hfj]
        have hid2 : j.id = t3.itemId := by rw [← hfj] at hid; exact hid
        rw [hstat]
        exact hqnl ha3 t3 hmem4 j hj hid2

/-- The structural invariant holds at every reachable state of a run started
on a session with nodup item ids. -/
theorem reachable_inv0 (cfg : RunConfig) (sess : BatchSession)
    (cache0 : Option String) (ready0 : Bool) (s : RunState)
    (hnodup : (sess.items.map (fun i => i.id)).Nodup)
    (h : Reachable cfg (initRunState sess cache0 ready0) s) :
    Inv0 cfg sess s := by
  induction h with
  | refl => exact inv0_init cfg sess cache0 ready0
  | step s1 s2 e hreach hstep ih =>
    cases hstep with
    | prepDeleteOld hp hw hc => exact inv0_prepDeleteOld cfg sess s1 ih hp
    | prepCreateOk name hp hw hc => exact inv0_prepCreateOk cfg sess s1 name ih hp
    | prepCreateFail hp hw hc => exact inv0_prepCreateFail cfg sess s1 ih hp
    | prepWarmup hp hcr => exact inv0_prepWarmup cfg sess s1 ih hp
    | startScheduling hp ha hw =>
      exact inv0_startScheduling cfg sess s1 ih hnodup hp ha
    | dispatch t rest hp ha hq hroom =>
      exact inv0_dispatch cfg sess s1 t rest ih hnodup hp ha hq hroom
    | dispatchAborted t rest hp ha hq hroom =>
      exact inv0_dispatchAborted cfg sess s1 t rest ih hnodup hp ha hq hroom
    | generateOk t ans u hp hm2 =>
      exact inv0_generateOk cfg sess s1 t ans u ih hnodup hp hm2
    | generateFail t msg hp hm2 =>
      exact inv0_generateFail cfg sess s1 t msg ih hnodup hp hm2
    | requeue t hp hm2 => exact inv0_requeue cfg sess s1 t ih hp hm2
    | abort hp ha => exact inv0_abort cfg sess s1 ih hp
    | stopDeleteCache name hp ha hc hd =>
      exact inv0_stopDeleteCache cfg sess s1 ih hp ha
    | finishRun hp ha hq hr hb => exact inv0_finishRun cfg sess s1 ih hp ha hq hr hb

/-- The loading count is bounded by the pool bound whenever the status-ticket
correspondence holds. -/
theorem loadingBound_of_statusTickets (cfg : RunConfig) (sess : BatchSession)
    (s : RunState) (hinv : Inv0 cfg sess s)
    (hnodup : (sess.items.map (fun i => i.id)).Nodup)
    (hst : StatusTickets s) :
    loadingCountOf s.session.items ≤ cfg.concurrency := by
  have hnd : ((s.session.items.filter (fun i => i.status == Status.loading)).map
      (fun i => i.id)).Nodup := by
    apply List.Nodup.sublist
      ((List.filter_sublist s.session.items).map (fun i => i.id))
    rw [hinv.itemIds]
    exact hnodup
  have hsubset : ((s.session.items.filter (fun i => i.status == Status.loading)).map
      (fun i => i.id)) ⊆ s.running.map (fun t => t.itemId) := by
    intro x hx
    obtain ⟨i, hi2, hix⟩ := List.mem_map.mp hx
    have hil : i.status = Status.loading := by
      have := (List.mem_filter.mp hi2).2
      simpa using this
    obtain ⟨tr, htr, htrid, _⟩ :=
      ((hst i (List.mem_filter.mp hi2).1).2.1) hil
    rw [← hix, ← htrid]
    exact List.mem_map_of_mem (fun t => t.itemId) htr
  have hle := (List.Nodup.subperm hnd hsubset).length_le
  have hrl : (s.running.map (fun t => t.itemId)).length = s.running.length :=
    List.length_map s.running (fun t => t.itemId)
  have hlc : loadingCountOf s.session.items =
      ((s.session.items.filter (fun i => i.status == Status.loading)).map
        (fun i => i.id)).length := by
    rw [List.length_map]
    rfl
  have hslots := hinv.slots
  omega

/-- A session with no loading items has loading count zero. -/
theorem loadingCountOf_eq_zero (items : List BatchFileItem)
    (h : ∀ i ∈ items, i.status ≠ Status.loading) : loadingCountOf items = 0 := by
  induction items with
  | nil => rfl
  | cons a l ih =>
    rw [loadingCountOf_cons, if_neg (h a (List.mem_cons_self a l)),
      ih (fun i hi => h i (List.mem_cons_of_mem a hi))]

theorem statusTickets_startScheduling (cfg : RunConfig) (sess : BatchSession)
    (s : RunState) (hinv : Inv0 cfg sess s)
    (hnodup : (sess.items.map (fun i => i.id)).Nodup)
    (hnoload : ∀ i ∈ sess.items, i.status ≠ Status.loading)
    (hp : s.phase = Phase.prep) :
    StatusTickets (startSchedulingPost s) := by
  obtain ⟨hsess, hq0, hr0, hb0, hat0⟩ := hinv.phasePre (Or.inl hp)
  have hitems_nodup : (s.session.items.map (fun i => i.id)).Nodup := by
    rw [hinv.itemIds]
    exact hnodup
  intro i hii
  have hii2 : i ∈ s.session.items := hii
  have hii3 : i ∈ sess.items := by rw [← hsess]; exact hii2
  refine ⟨?_, ?_, ?_, ?_⟩
  · intro hpend
    refine ⟨{ itemId := i.id, retries := 0 }, ?_, rfl, rfl, hat0 i.id⟩
    show { itemId := i.id, retries := 0 } ∈ seedQueue s.session.items
    apply List.mem_map_of_mem
    rw [List.mem_filter]
    exact ⟨hii2, by rw [hpend]; rfl⟩
  · intro hload
    exact absurd hload (hnoload i hii3)
  · intro herr
    left
    refine ⟨{ itemId := i.id, retries := 0 }, Or.inl ?_, rfl, (hat0 i.id).symm ▸ rfl⟩
    show { itemId := i.id, retries := 0 } ∈ seedQueue s.session.items
    apply List.mem_map_of_mem
    rw [List.mem_filter]
    refine ⟨hii2, by rw [herr]; rfl⟩
  · intro hsucc
    show i.id ∉ (seedQueue s.session.items ++ s.running ++ s.backoff).map
      (fun t => t.itemId)
    rw [hr0, hb0]
    intro hcontra
    simp only [List.append_nil] at hcontra
    obtain ⟨t2, ht2, ht2id⟩ := List.mem_map.mp hcontra
    obtain ⟨j, hj, hjt⟩ := List.mem_map.mp ht2
    have hjid : j.id = i.id := by rw [← ht2id, ← hjt]
    have hij : j = i :=
      eq_of_nodup_map hitems_nodup (List.mem_filter.mp hj).1 hii2 hjid
    have hjstat := (List.mem_filter.mp hj).2
    rw [hij, hsucc] at hjstat
    simp at hjstat

theorem statusTickets_dispatch (cfg : RunConfig) (sess : BatchSession)
    (s : RunState) (t : Ticket) (rest : List Ticket)
    (hinv : Inv0 cfg sess s)
    (hnodup : (sess.items.map (fun i => i.id)).Nodup)
    (hst : StatusTickets s)
    (ha : s.aborted = false) (hq : s.queue = t :: rest) :
    StatusTickets (dispatchPost s t rest) := by
  have hnds : ((allTickets s).map (fun t2 => t2.itemId)).Nodup :=
    hinv.ticketsNodup hnodup
  have htmemall : t ∈ allTickets s := by
    rw [allTickets_eq, hq]
    exact List.mem_append.mpr (Or.inl (List.mem_append.mpr (Or.inl
      (List.mem_cons_self t rest))))
  have hpre_eq : allTickets s = (t :: rest) ++ s.running ++ s.backoff := by
    rw [allTickets_eq, hq]
  have hperm : List.Perm (allTickets (dispatchPost s t rest)) (allTickets s) := by
    rw [hpre_eq]
    exact (perm_snoc_mid t rest s.running s.backoff).trans
      (perm_extract_left t rest s.running s.backoff).symm
  have hnotick : ∀ x, NoTicketFor s x → NoTicketFor (dispatchPost s t rest) x := by
    intro x hx hcontra
    obtain ⟨tp, htp, htpid⟩ := List.mem_map.mp hcontra
    apply hx
    rw [← htpid]
    exact List.mem_map_of_mem (fun t2 => t2.itemId) (hperm.subset htp)
  intro i hii
  obtain ⟨j, hj, hfj⟩ := List.mem_map.mp hii
  have hstj := hst j hj
  by_cases hjid : j.id = t.itemId
  · rw [if_pos hjid] at hfj
    have hiid : i.id = t.itemId := by
      rw [← hfj]
      exact hjid
    have hstatus : j.status = Status.pending ∨ j.status = Status.error :=
      hinv.queueNotLoading ha t
        (Or.inl (by rw [hq]; exact List.mem_cons_self t rest)) j hj hjid
    have hretatt : s.attempts t.itemId = t.retries := by
      rcases hstatus with hjp | hje
      · obtain ⟨tq, htqq, htqid, htqret, hatt0⟩ := hstj.1 hjp
        have htqall : tq ∈ allTickets s := by
          rw [allTickets_eq]
          exact List.mem_append.mpr (Or.inl (List.mem_append.mpr (Or.inl htqq)))
        have htqt : tq = t :=
          eq_of_nodup_map hnds htqall htmemall (htqid.trans hjid)
        have htret0 : t.retries = 0 := by
          rw [← htqt]
          exact htqret
        rw [← hjid, htret0]
        exact hatt0
      · rcases hstj.2.2.1 hje with ⟨te, hteqb, hteid, hatte⟩ | ⟨hatt6, hnt⟩
        · have hteall : te ∈ allTickets s := by
            rw [allTickets_eq]
            rcases hteqb with hte | hte
            · exact List.mem_append.mpr (Or.inl (List.mem_append.mpr (Or.inl hte)))
            · exact List.mem_append.mpr (Or.inr hte)
          have htet : te = t :=
            eq_of_nodup_map hnds hteall htmemall (hteid.trans hjid)
          rw [← hjid, hatte, htet]
        · exfalso
          apply hnt
          rw [hjid]
          exact List.mem_map_of_mem (fun t2 => t2.itemId) htmemall
    refine ⟨?_, ?_, ?_, ?_⟩
    · intro hx
      rw [← hfj] at hx
      have hx2 : Status.loading = Status.pending := hx
      exact absurd hx2 (by decide)
    · intro _
      refine ⟨t, List.mem_append.mpr (Or.inr (List.mem_singleton.mpr rfl)),
        hiid.symm, ?_⟩
      show (if i.id = t.itemId then s.attempts i.id + 1 else s.attempts i.id) =
        t.retries + 1
      rw [if_pos hiid, hiid, hretatt]
    · intro hx
      rw [← hfj] at hx
      have hx2 : Status.loading = Status.error := hx
      exact absurd hx2 (by decide)
    · intro hx
      rw [← hfj] at hx
      have hx2 : Status.loading = Status.success := hx
      exact absurd hx2 (by decide)
  · rw [if_neg hjid] at hfj
    subst hfj
    have hattsame : (dispatchPost s t rest).attempts j.id = s.attempts j.id := by
      show (if j.id = t.itemId then s.attempts j.id + 1 else s.attempts j.id) = _
      rw [if_neg hjid]
    refine ⟨?_, ?_, ?_, ?_⟩
    · intro hjp
      obtain ⟨tq, htqq, htqid, htqret, hatt0⟩ := hstj.1 hjp
      have htqne : tq ≠ t := by
        intro hcontra
        rw [hcontra] at htqid
        exact hjid htqid.symm
      have htqrest : tq ∈ rest := by
        rw [hq] at htqq
        rcases List.mem_cons.mp htqq with hcontra | hx
        · exact absurd hcontra htqne
        · exact hx
      exact ⟨tq, htqrest, htqid, htqret, hattsame ▸ hatt0⟩
    · intro hjl
      obtain ⟨tr, htr, htrid, hatt⟩ := hstj.2.1 hjl
      exact ⟨tr, List.mem_append.mpr (Or.inl htr), htrid, hattsame ▸ hatt⟩
    · intro hje
      rcases hstj.2.2.1 hje with ⟨te, hteqb, hteid, hatte⟩ | ⟨hatt6, hnt⟩
      · left
        refine ⟨te, ?_, hteid, hattsame ▸ hatte⟩
        rcases hteqb with hte | hte
        · left
          rw [hq] at hte
          rcases List.mem_cons.mp hte with hcontra | hx
          · rw [hcontra] at hteid
            exact absurd hteid.symm hjid
          · exact hx
        · right
          exact hte
      · right
        exact ⟨hattsame ▸ hatt6, hnotick j.id hnt⟩
    · intro hjs
      exact hnotick j.id (hstj.2.2.2 hjs)

theorem statusTickets_generateOk (cfg : RunConfig) (sess : BatchSession)
    (s : RunState) (t : Ticket) (ans : String) (u : TokenUsage)
    (hinv : Inv0 cfg sess s)
    (hnodup : (sess.items.map (fun i => i.id)).Nodup)
    (hst : StatusTickets s) (hm : t ∈ s.running) :
    StatusTickets (generateOkPost s t ans u) := by
  have hnds : ((allTickets s).map (fun t2 => t2.itemId)).Nodup :=
    hinv.ticketsNodup hnodup
  have huniq : t.itemId ∉ (s.queue ++ s.running.erase t ++ s.backoff).map
      (fun t2 => t2.itemId) := ticket_id_unique_running s t hm hnds
  have hsub : List.Sublist (allTickets (generateOkPost s t ans u)) (allTickets s) :=
    ((List.Sublist.refl s.queue).append (List.erase_sublist t s.running)).append
      (List.Sublist.refl s.backoff)
  have htmemall : t ∈ allTickets s :=
    List.mem_append.mpr (Or.inl (List.mem_append.mpr (Or.inr hm)))
  have hnotick : ∀ x, NoTicketFor s x → NoTicketFor (generateOkPost s t ans u) x := by
    intro x hx hcontra
    obtain ⟨tp, htp, htpid⟩ := List.mem_map.mp hcontra
    apply hx
    rw [← htpid]
    exact List.mem_map_of_mem (fun t2 => t2.itemId) (hsub.subset htp)
  intro i hii
  obtain ⟨j, hj, hfj⟩ := List.mem_map.mp hii
  have hstj := hst j hj
  by_cases hjid : j.id = t.itemId
  · rw [if_pos hjid] at hfj
    have hiid : i.id = t.itemId := by
      rw [← hfj]
      exact hjid
    refine ⟨?_, ?_, ?_, ?_⟩
    · intro hx
      rw [← hfj] at hx
      have hx2 : Status.success = Status.pending := hx
      exact absurd hx2 (by decide)
    · intro hx
      rw [← hfj] at hx
      have hx2 : Status.success = Status.loading := hx
      exact absurd hx2 (by decide)
    · intro hx
      rw [← hfj] at hx
      have hx2 : Status.success = Status.error := hx
      exact absurd hx2 (by decide)
    · intro _
      show i.id ∉ (allTickets (generateOkPost s t ans u)).map (fun t2 => t2.itemId)
      rw [hiid]
      exact huniq
  · rw [if_neg hjid] at hfj
    subst hfj
    refine ⟨?_, ?_, ?_, ?_⟩
    · intro hjp
      obtain ⟨tq, htqq, htqid, htqret, hatt0⟩ := hstj.1 hjp
      exact ⟨tq, htqq, htqid, htqret, hatt0⟩
    · intro hjl
      obtain ⟨tr, htr, htrid, hatt⟩ := hstj.2.1 hjl
      have htrne : tr ≠ t := by
        intro hcontra
        rw [hcontra] at htrid
        exact hjid htrid.symm
      exact ⟨tr, (List.mem_erase_of_ne htrne).mpr htr, htrid, hatt⟩
    · intro hje
      rcases hstj.2.2.1 hje with ⟨te, hteqb, hteid, hatte⟩ | ⟨hatt6, hnt⟩
      · exact Or.inl ⟨te, hteqb, hteid, hatte⟩
      · exact Or.inr ⟨hatt6, hnotick j.id hnt⟩
    · intro hjs
      exact hnotick j.id (hstj.2.2.2 hjs)

theorem statusTickets_requeue (cfg : RunConfig) (sess : BatchSession)
    (s : RunState) (t : Ticket) (hinv : Inv0 cfg sess s)
    (hst : StatusTickets s) (hm : t ∈ s.backoff) :
    StatusTickets (requeuePost s t) := by
  have hperm : List.Perm (allTickets (requeuePost s t)) (allTickets s) := by
    rw [allTickets_eq, allTickets_eq]
    refine List.Perm.trans ?_ (perm_extract_back t s.queue s.running s.backoff hm).symm
    exact perm_snoc_front t s.queue s.running (s.backoff.erase t)
  have hnotick : ∀ x, NoTicketFor s x → NoTicketFor (requeuePost s t) x := by
    intro x hx hcontra
    obtain ⟨tp, htp, htpid⟩ := List.mem_map.mp hcontra
    apply hx
    rw [← htpid]
    exact List.mem_map_of_mem (fun t2 => t2.itemId) (hperm.subset htp)
  intro i hii
  have hstj := hst i hii
  refine ⟨?_, ?_, ?_, ?_⟩
  · intro hp2
    obtain ⟨tq, htqq, htqid, htqret, hatt0⟩ := hstj.1 hp2
    exact ⟨tq, List.mem_append.mpr (Or.inl htqq), htqid, htqret, hatt0⟩
  · intro hl2
    exact hstj.2.1 hl2
  · intro he2
    rcases hstj.2.2.1 he2 with ⟨te, hteqb, hteid, hatte⟩ | ⟨hatt6, hnt⟩
    · left
      refine ⟨te, ?_, hteid, hatte⟩
      rcases hteqb with hte | hte
      · exact Or.inl (List.mem_append.mpr (Or.inl hte))
      · by_cases htet : te = t
        · refine Or.inl (List.mem_append.mpr (Or.inr ?_))
          rw [htet]
          exact List.mem_singleton.mpr rfl
        · exact Or.inr ((List.mem_erase_of_ne htet).mpr hte)
    · exact Or.inr ⟨hatt6, hnotick i.id hnt⟩
  · intro hs2
    exact hnotick i.id (hstj.2.2.2 hs2)

theorem statusTickets_generateFail (cfg : RunConfig) (sess : BatchSession)
    (s : RunState) (t : Ticket) (msg : String)
    (hinv : Inv0 cfg sess s)
    (hnodup : (sess.items.map (fun i => i.id)).Nodup)
    (hst : StatusTickets s)
    (ha : s.aborted = false) (hm : t ∈ s.running) :
    StatusTickets (generateFailPost s t msg) := by
  have hnds : ((allTickets s).map (fun t2 => t2.itemId)).Nodup :=
    hinv.ticketsNodup hnodup
  have huniq : t.itemId ∉ (s.queue ++ s.running.erase t ++ s.backoff).map
      (fun t2 => t2.itemId) := ticket_id_unique_running s t hm hnds
  have htmemall : t ∈ allTickets s :=
    List.mem_append.mpr (Or.inl (List.mem_append.mpr (Or.inr hm)))
  have hsess : (generateFailPost s t msg).session =
      updateItemInSession s.session t.itemId
        { status := some Status.error, errorMsg := some msg } := by
    show (if s.aborted = true then s.session
      else updateItemInSession s.session t.itemId
        { status := some Status.error, errorMsg := some msg }) =
      updateItemInSession s.session t.itemId
        { status := some Status.error, errorMsg := some msg }
    rw [if_neg (by rw [ha]; exact Bool.false_ne_true)]
  have hnotick : ∀ x, NoTicketFor s x → NoTicketFor (generateFailPost s t msg) x := by
    intro x hx hcontra
    obtain ⟨tp, htp, htpid⟩ := List.mem_map.mp hcontra
    have htp2 : tp ∈ s.queue ++ s.running.erase t ++
        (if t.retries < maxRetries then
          s.backoff ++ [({ itemId := t.itemId, retries := t.retries + 1 } : Ticket)]
        else s.backoff) := htp
    have htxid : x = tp.itemId := htpid.symm
    by_cases hret : t.retries < maxRetries
    · rw [if_pos hret] at htp2
      rcases List.mem_append.mp htp2 with htp3 | htp3
      · rcases List.mem_append.mp htp3 with htp4 | htp4
        · exact hx (htxid ▸ List.mem_map_of_mem (fun t2 => t2.itemId)
            (List.mem_append.mpr (Or.inl (List.mem_append.mpr (Or.inl htp4)))))
        · exact hx (htxid ▸ List.mem_map_of_mem (fun t2 => t2.itemId)
            (List.mem_append.mpr (Or.inl (List.mem_append.mpr (Or.inr
              ((List.erase_sublist t s.running).subset htp4))))))
      · rcases List.mem_append.mp htp3 with htp4 | htp4
        · exact hx (htxid ▸ List.mem_map_of_mem (fun t2 => t2.itemId)
            (List.mem_append.mpr (Or.inr htp4)))
        · have htpt : tp = { itemId := t.itemId, retries := t.retries + 1 } :=
            List.mem_singleton.mp htp4
          apply hx
          rw [htxid, htpt]
          exact List.mem_map_of_mem (fun t2 => t2.itemId) htmemall
    · rw [if_neg hret] at htp2
      rcases List.mem_append.mp htp2 with htp3 | htp3
      · rcases List.mem_append.mp htp3 with htp4 | htp4
        · exact hx (htxid ▸ List.mem_map_of_mem (fun t2 => t2.itemId)
            (List.mem_append.mpr (Or.inl (List.mem_append.mpr (Or.inl htp4)))))
        · exact hx (htxid ▸ List.mem_map_of_mem (fun t2 => t2.itemId)
            (List.mem_append.mpr (Or.inl (List.mem_append.mpr (Or.inr
              ((List.erase_sublist t s.running).subset htp4))))))
      · exact hx (htxid ▸ List.mem_map_of_mem (fun t2 => t2.itemId)
          (List.mem_append.mpr (Or.inr htp3)))
  intro i hii
  rw [hsess] at hii
  obtain ⟨j, hj, hfj⟩ := List.mem_map.mp hii
  have hstj := hst j hj
  by_cases hjid : j.id = t.itemId
  · rw [if_pos hjid] at hfj
    have hiid : i.id = t.itemId := by
      rw [← hfj]
      exact hjid
    have hjload : j.status = Status.loading := hinv.runningLoading ha t hm j hj hjid
    obtain ⟨tr, htr, htrid, hatt⟩ := hstj.2.1 hjload
    have htrall : tr ∈ allTickets s :=
      List.mem_append.mpr (Or.inl (List.mem_append.mpr (Or.inr htr)))
    have htrt : tr = t := eq_of_nodup_map hnds htrall htmemall (htrid.trans hjid)
    have hattval : s.attempts j.id = t.retries + 1 := by
      rw [hatt, htrt]
    refine ⟨?_, ?_, ?_, ?_⟩
    · intro hx
      rw [← hfj] at hx
      have hx2 : Status.error = Status.pending := hx
      exact absurd hx2 (by decide)
    · intro hx
      rw [← hfj] at hx
      have hx2 : Status.error = Status.loading := hx
      exact absurd hx2 (by decide)
    · intro _
      by_cases hret : t.retries < maxRetries
      · left
        refine ⟨{ itemId := t.itemId, retries := t.retries + 1 }, Or.inr ?_, ?_, ?_⟩
        · show ({ itemId := t.itemId, retries := t.retries + 1 } : Ticket) ∈
            (if t.retries < maxRetries then
              s.backoff ++ [({ itemId := t.itemId, retries := t.retries + 1 } : Ticket)]
            else s.backoff)
          rw [if_pos hret]
          exact List.mem_append.mpr (Or.inr (List.mem_singleton.mpr rfl))
        · show t.itemId = i.id
          exact hiid.symm
        · show s.attempts i.id = t.retries + 1
          rw [hiid.trans hjid.symm]
          exact hattval
      · right
        have hle : t.retries ≤ maxRetries := hinv.ticketsRetries t htmemall
        have heq5 : t.retries = maxRetries := by omega
        constructor
        · show s.attempts i.id = maxRetries + 1
          rw [hiid.trans hjid.symm, hattval, heq5]
        · show i.id ∉ (allTickets (generateFailPost s t msg)).map (fun t2 => t2.itemId)
          rw [hiid]
          intro hcontra
          obtain ⟨tp, htp, htpid⟩ := List.mem_map.mp hcontra
          have htp2 : tp ∈ s.queue ++ s.running.erase t ++
              (if t.retries < maxRetries then
                s.backoff ++ [({ itemId := t.itemId, retries := t.retries + 1 } : Ticket)]
              else s.backoff) := htp
          rw [if_neg hret] at htp2
          apply huniq
          rw [← htpid]
          exact List.mem_map_of_mem (fun t2 => t2.itemId) htp2
    · intro hx
      rw [← hfj] at hx
      have hx2 : Status.error = Status.success := hx
      exact absurd hx2 (by decide)
  · rw [if_neg hjid] at hfj
    subst hfj
    refine ⟨?_, ?_, ?_, ?_⟩
    · intro hjp
      obtain ⟨tq, htqq, htqid, htqret, hatt0⟩ := hstj.1 hjp
      exact ⟨tq, htqq, htqid, htqret, hatt0⟩
    · intro hjl
      obtain ⟨tr, htr, htrid, hatt⟩ := hstj.2.1 hjl
      have htrne : tr ≠ t := by
        intro hcontra
        rw [hcontra] at htrid
        exact hjid htrid.symm
      exact ⟨tr, (List.mem_erase_of_ne htrne).mpr htr, htrid, hatt⟩
    · intro hje
      rcases hstj.2.2.1 hje with ⟨te, hteqb, hteid, hatte⟩ | ⟨hatt6, hnt⟩
      · left
        refine ⟨te, ?_, hteid, hatte⟩
        rcases hteqb with hte | hte
        · exact Or.inl hte
        · right
          show te ∈ (if t.retries < maxRetries then
              s.backoff ++ [({ itemId := t.itemId, retries := t.retries + 1 } : Ticket)]
            else s.backoff)
          by_cases hret : t.retries < maxRetries
          · rw [if_pos hret]
            exact List.mem_append.mpr (Or.inl hte)
          · rw [if_neg hret]
            exact hte
      · exact Or.inr ⟨hatt6, hnotick j.id hnt⟩
    · intro hjs
      exact hnotick j.id (hstj.2.2.2 hjs)

theorem reachable_invClean (cfg : RunConfig) (sess : BatchSession)
    (cache0 : Option String) (ready0 : Bool) (s : RunState)
    (hnodup : (sess.items.map (fun i => i.id)).Nodup)
    (hnoload : ∀ i ∈ sess.items, i.status ≠ Status.loading)
    (h : Reachable cfg (initRunState sess cache0 ready0) s) :
    InvClean cfg s := by
  induction h with
  | refl =>
    constructor
    · intro _ hph
      rcases hph with hph | hph
      · have h2 : Phase.prep = Phase.scheduling := hph
        exact absurd h2 (by decide)
      · have h2 : Phase.prep = Phase.done := hph
        exact absurd h2 (by decide)
    · have h0 := loadingCountOf_eq_zero sess.items hnoload
      show loadingCountOf sess.items ≤ cfg.concurrency
      omega
  | step s1 s2 e hreach hstep ih =>
    have hinv1 : Inv0 cfg sess s1 :=
      reachable_inv0 cfg sess cache0 ready0 s1 hnodup hreach
    have hinv2 : Inv0 cfg sess s2 :=
      reachable_inv0 cfg sess cache0 ready0 s2 hnodup
        (Reachable.step s1 s2 e hreach hstep)
    cases hstep with
    | prepDeleteOld hp hw hc =>
      constructor
      · intro _ hph
        rcases hph with hph | hph <;> exact absurd (hp.symm.trans hph) (by decide)
      · exact ih.loadingBound
    | prepCreateOk name hp hw hc =>
      constructor
      · intro _ hph
        rcases hph with hph | hph <;> exact absurd (hp.symm.trans hph) (by decide)
      · exact ih.loadingBound
    | prepCreateFail hp hw hc =>
      constructor
      · intro _ hph
        rcases hph with hph | hph
        · have h2 : Phase.failed = Phase.scheduling := hph
          exact absurd h2 (by decide)
        · have h2 : Phase.failed = Phase.done := hph
          exact absurd h2 (by decide)
      · exact ih.loadingBound
    | prepWarmup hp hcr =>
      constructor
      · intro _ hph
        rcases hph with hph | hph <;> exact absurd (hp.symm.trans hph) (by decide)
      · exact ih.loadingBound
    | startScheduling hp ha hw =>
      have hstpost : StatusTickets (startSchedulingPost s1) :=
        statusTickets_startScheduling cfg sess s1 hinv1 hnodup hnoload hp
      constructor
      · intro _ _
        exact hstpost
      · exact loadingBound_of_statusTickets cfg sess (startSchedulingPost s1)
          hinv2 hnodup hstpost
    | dispatch t rest hp ha hq hroom =>
      have hst1 : StatusTickets s1 := ih.statusTickets ha (Or.inl hp)
      have hstpost : StatusTickets (dispatchPost s1 t rest) :=
        statusTickets_dispatch cfg sess s1 t rest hinv1 hnodup hst1 ha hq
      constructor
      · intro _ _
        exact hstpost
      · exact loadingBound_of_statusTickets cfg sess (dispatchPost s1 t rest)
          hinv2 hnodup hstpost
    | dispatchAborted t rest hp ha hq hroom =>
      constructor
      · intro ha2 _
        have ha3 : s1.aborted = false := ha2
        rw [ha] at ha3
        exact absurd ha3 (by decide)
      · exact ih.loadingBound
    | generateOk t ans u hp hm2 =>
      constructor
      · intro ha2 hph
        have ha3 : s1.aborted = false := ha2
        exact statusTickets_generateOk cfg sess s1 t ans u hinv1 hnodup
          (ih.statusTickets ha3 (Or.inl hp)) hm2
      · by_cases habort : s1.aborted = true
        · have hle : loadingCountOf ((generateOkPost s1 t ans u).session.items) ≤
              loadingCountOf s1.session.items := by
            show loadingCountOf (s1.session.items.map
              (fun item => if item.id = t.itemId then applyUpdates item
                { status := some Status.success, answer := some ans,
                  tokenUsage := some u } else item)) ≤ _
            apply loadingCount_map_le
            intro i _ hload
            by_cases hid : i.id = t.itemId
            · rw [if_pos hid] at hload
              have h2 : Status.success = Status.loading := hload
              exact absurd h2 (by decide)
            · rw [if_neg hid] at hload
              exact hload
          have := ih.loadingBound
          omega
        · have ha3 : s1.aborted = false := by
            revert habort
            cases s1.aborted <;> simp
          exact loadingBound_of_statusTickets cfg sess (generateOkPost s1 t ans u)
            hinv2 hnodup
            (statusTickets_generateOk cfg sess s1 t ans u hinv1 hnodup
              (ih.statusTickets ha3 (Or.inl hp)) hm2)
    | generateFail t msg hp hm2 =>
      constructor
      · intro ha2 hph
        have ha3 : s1.aborted = false := ha2
        exact statusTickets_generateFail cfg sess s1 t msg hinv1 hnodup
          (ih.statusTickets ha3 (Or.inl hp)) ha3 hm2
      · by_cases habort : s1.aborted = true
        · have hsess : (generateFailPost s1 t msg).session = s1.session := by
            show (if s1.aborted = true then s1.session
              else updateItemInSession s1.session t.itemId
                { status := some Status.error, errorMsg := some msg }) = s1.session
            rw [if_pos habort]
          rw [hsess]
          exact ih.loadingBound
        · have ha3 : s1.aborted = false := by
            revert habort
            cases s1.aborted <;> simp
          exact loadingBound_of_statusTickets cfg sess (generateFailPost s1 t msg)
            hinv2 hnodup
            (statusTickets_generateFail cfg sess s1 t msg hinv1 hnodup
              (ih.statusTickets ha3 (Or.inl hp)) ha3 hm2)
    | requeue t hp hm2 =>
      constructor
      · intro ha2 hph
        have ha3 : s1.aborted = false := ha2
        exact statusTickets_requeue cfg sess s1 t hinv1
          (ih.statusTickets ha3 (Or.inl hp)) hm2
      · exact ih.loadingBound
    | abort hp ha =>
      constructor
      · intro ha2 _
        have ha3 : true = false := ha2
        exact absurd ha3 (by decide)
      · exact ih.loadingBound
    | stopDeleteCache name hp ha hc hd =>
      constructor
      · intro ha2 _
        have ha3 : s1.aborted = false := ha2
        rw [ha] at ha3
        exact absurd ha3 (by decide)
      · exact ih.loadingBound
    | finishRun hp ha hq hr hb =>
      constructor
      · intro _ _
        exact ih.statusTickets ha (Or.inl hp)
      · exact ih.loadingBound

/-- Every step of a run preserves the derived-aggregate session invariant:
each item mutation goes through updateItemInSession, which recomputes
completedFiles and isFinished from the item list. -/
theorem reachable_sessionInv (cfg : RunConfig) (sess : BatchSession)
    (cache0 : Option String) (ready0 : Bool) (s : RunState)
    (h : Reachable cfg (initRunState sess cache0 ready0) s)
    (hinit : SessionInv sess) : SessionInv s.session := by
  induction h with
  | refl => exact hinit
  | step s1 s2 e hreach hstep ih =>
    cases hstep with
    | prepDeleteOld hp hw hc => exact ih
    | prepCreateOk name hp hw hc => exact ih
    | prepCreateFail hp hw hc => exact ih
    | prepWarmup hp hcr => exact ih
    | startScheduling hp ha hw => exact ih
    | dispatch t rest hp ha hq hroom =>
      exact updateItemInSession_sessionInv s1.session t.itemId _
    | dispatchAborted t rest hp ha hq hroom => exact ih
    | generateOk t ans u hp hm2 =>
      exact updateItemInSession_sessionInv s1.session t.itemId _
    | generateFail t msg hp hm2 =>
      by_cases habort : s1.aborted = true
      · have hsess : (generateFailPost s1 t msg).session = s1.session := by
          show (if s1.aborted = true then s1.session
            else updateItemInSession s1.session t.itemId
              { status := some Status.error, errorMsg := some msg }) = s1.session
          rw [if_pos habort]
        rw [hsess]
        exact ih
      · have hsess : (generateFailPost s1 t msg).session =
            updateItemInSession s1.session t.itemId
              { status := some Status.error, errorMsg := some msg } := by
          show (if s1.aborted = true then s1.session
            else updateItemInSession s1.session t.itemId
              { status := some Status.error, errorMsg := some msg }) = _
          rw [if_neg habort]
        rw [hsess]
        exact updateItemInSession_sessionInv s1.session t.itemId _
    | requeue t hp hm2 => exact ih
    | abort hp ha => exact ih
    | stopDeleteCache name hp ha hc hd => exact ih
    | finishRun hp ha hq hr hb => exact ih

/-- C1: for every run started on a session satisfying the derived-aggregate
invariant (as every runnable session does: the folder import path builds
sessions with completedFiles 0 and isFinished false, updateItemInSession
re-establishes the invariant on every mutation, and the run button is shown
only for sessions with isFinished false), at every reachable point of the run
the session satisfies completedFiles = count of terminal items and
isFinished = (completedFiles == totalFiles); both are recomputed from the
items by updateItemInSession on every item mutation. -/
theorem c1_session_invariant (cfg : RunConfig) (sess : BatchSession)
    (cache0 : Option String) (ready0 : Bool) (s : RunState)
    (h : Reachable cfg (initRunState sess cache0 ready0) s)
    (hinit : SessionInv sess) :
    s.session.completedFiles = completedCountOf s.session.items ∧
    s.session.isFinished = (s.session.completedFiles == s.session.totalFiles) :=
  reachable_sessionInv cfg sess cache0 ready0 s h hinit

/-- Witness for C1 at a concrete run: the one-item session after three steps
of its failing run still satisfies the invariant. -/
theorem c1_session_invariant_witness :
    stA3.session.completedFiles = completedCountOf stA3.session.items ∧
    stA3.session.isFinished = (stA3.session.completedFiles == stA3.session.totalFiles) :=
  c1_session_invariant cfgA sessA none false stA3 reach_stA3
    (by constructor <;> decide)

/-- C10: saving a session into a stored list of at most 10 sessions replaces
the entry with the same id in place (leaving all others unchanged), prepends
a session with a new id and drops the oldest entry when the list would exceed
10, so the stored list never exceeds 10 sessions. -/
theorem c10_save_bounded_list (sessions : List BatchSession)
    (session : BatchSession) (hlen : sessions.length ≤ 10) :
    (saveLocalBatchSession sessions session).length ≤ 10 ∧
    (∀ i, sessions.findIdx? (fun s => s.id == session.id) = some i →
      saveLocalBatchSession sessions session = sessions.set i session) ∧
    (sessions.findIdx? (fun s => s.id == session.id) = none →
      saveLocalBatchSession sessions session =
        if sessions.length = 10 then (session :: sessions).dropLast
        else session :: sessions) := by
  cases hidx : sessions.findIdx? (fun s => s.id == session.id) with
  | some i =>
    have hset : (sessions.set i session).length = sessions.length :=
      List.length_set sessions i session
    have hgoal : saveLocalBatchSession sessions session = sessions.set i session := by
      simp only [saveLocalBatchSession, hidx]
      rw [if_neg (by omega)]
    refine ⟨by rw [hgoal]; omega, ?_, ?_⟩
    · intro i2 hi2
      cases hi2
      exact hgoal
    · intro hnone
      cases hnone
  | none =>
    by_cases hfull : sessions.length = 10
    · have hgoal : saveLocalBatchSession sessions session =
          (session :: sessions).dropLast := by
        simp only [saveLocalBatchSession, hidx]
        rw [if_pos (by simp only [List.length_cons]; omega)]
      refine ⟨?_, ?_, ?_⟩
      · rw [hgoal]
        have := List.length_dropLast (session :: sessions)
        simp only [List.length_cons] at this
        omega
      · intro i2 hi2
        cases hi2
      · intro _
        rw [hgoal, if_pos hfull]
    · have hgoal : saveLocalBatchSession sessions session = session :: sessions := by
        simp only [saveLocalBatchSession, hidx]
        rw [if_neg (by simp only [List.length_cons]; omega)]
      refine ⟨?_, ?_, ?_⟩
      · rw [hgoal]
        simp only [List.length_cons]
        omega
      · intro i2 hi2
        cases hi2
      · intro _
        rw [hgoal, if_neg hfull]

/-- Witness for C10 on a concrete stored list: replacing in place and
prepending with the bound. -/
theorem c10_save_bounded_list_witness :
    (saveLocalBatchSession [sessA] sessD).length ≤ 10 ∧
    saveLocalBatchSession [sessA] sessD = [sessD, sessA] := by
  have h := c10_save_bounded_list [sessA] sessD (by decide)
  refine ⟨h.1, ?_⟩
  have h3 := h.2.2 (by decide)
  rw [h3]
  decide

/-- C2 amended: when the Generate call of a dispatched item rejects while the
ticket retry count is below the cap and the run is not cancelled, the item
transitions from loading to error (with the failure message recorded), not
back to pending, and its ticket is parked in the backoff delay with the retry
count incremented before being pushed back onto the queue. -/
theorem c2_failed_item_goes_error (cfg : RunConfig) (s s2 : RunState)
    (t : Ticket) (msg : String)
    (h : Step cfg s (Event.generateFail t msg) s2)
    (ha : s.aborted = false) (hret : t.retries < maxRetries) :
    (∀ i ∈ s2.session.items, i.id = t.itemId →
      i.status = Status.error ∧ i.errorMsg = some msg) ∧
    s2.backoff = s.backoff ++ [{ itemId := t.itemId, retries := t.retries + 1 }] := by
  cases h with
  | generateFail hp hm =>
    have hsess : (generateFailPost s t msg).session =
        updateItemInSession s.session t.itemId
          { status := some Status.error, errorMsg := some msg } := by
      show (if s.aborted = true then s.session
        else updateItemInSession s.session t.itemId
          { status := some Status.error, errorMsg := some msg }) = _
      rw [if_neg (by rw [ha]; exact Bool.false_ne_true)]
    constructor
    · intro i hii hid
      rw [hsess] at hii
      obtain ⟨j, hj, hfj⟩ := List.mem_map.mp hii
      by_cases hjid : j.id = t.itemId
      · rw [if_pos hjid] at hfj
        rw [← hfj]
        exact ⟨rfl, rfl⟩
      · rw [if_neg hjid] at hfj
        rw [← hfj] at hid
        exact absurd hid hjid
    · show (if t.retries < maxRetries then
          s.backoff ++ [{ itemId := t.itemId, retries := t.retries + 1 }]
        else s.backoff) = _
      rw [if_pos hret]

/-- Witness for C2 at the first failure of the concrete one-item run. -/
theorem c2_failed_item_goes_error_witness :
    (∀ i ∈ stA3.session.items, i.id = "1-0" →
      i.status = Status.error ∧ i.errorMsg = some "503 overloaded") ∧
    stA3.backoff = [tktA1] := by
  have h := c2_failed_item_goes_error cfgA stA2 stA3 tktA0 "503 overloaded"
    (Step.generateFail stA2 tktA0 "503 overloaded" (by decide) (by decide))
    (by decide) (by decide)
  exact ⟨h.1, by decide⟩

/-- Counterexample to C2 as stated: in the concrete reachable run, the first
remote failure of item 1-0 happens with attempt count 0, below the cap of 5,
yet the item status becomes error, not pending, and the ticket sits in the
backoff delay rather than being re-queued as a pending item. -/
theorem c2_counterexample :
    Reachable cfgA stA0 stA3 ∧ tktA0.retries < maxRetries ∧
    stA3.session.items.map (fun i => i.status) = [Status.error] ∧
    stA3.queue = [] ∧ stA3.backoff = [tktA1] :=
  ⟨reach_stA3, by decide, by decide, by decide, by decide⟩

/-- C3 amended part that holds: once cancellation has been observed, no step
moves an item into loading; every item that is loading after the step was
already present, unchanged, before it. -/
theorem c3_no_new_loading_after_abort (cfg : RunConfig) (s : RunState)
    (e : Event) (s2 : RunState) (h : Step cfg s e s2) (ha : s.aborted = true) :
    ∀ i ∈ s2.session.items, i.status = Status.loading → i ∈ s.session.items := by
  cases h with
  | prepDeleteOld hp hw hc => exact fun i hi _ => hi
  | prepCreateOk name hp hw hc => exact fun i hi _ => hi
  | prepCreateFail hp hw hc => exact fun i hi _ => hi
  | prepWarmup hp hcr => exact fun i hi _ => hi
  | startScheduling hp ha2 hw =>
    rw [ha] at ha2
    exact absurd ha2 (by decide)
  | dispatch t rest hp ha2 hq hroom =>
    rw [ha] at ha2
    exact absurd ha2 (by decide)
  | dispatchAborted t rest hp ha2 hq hroom => exact fun i hi _ => hi
  | generateOk t ans u hp hm =>
    intro i hii hload
    obtain ⟨j, hj, hfj⟩ := List.mem_map.mp hii
    by_cases hjid : j.id = t.itemId
    · rw [if_pos hjid] at hfj
      rw [← hfj] at hload
      have h2 : Status.success = Status.loading := hload
      exact absurd h2 (by decide)
    · rw [if_neg hjid] at hfj
      rw [← hfj]
      exact hj
  | generateFail t msg hp hm =>
    intro i hii hload
    have hsess : (generateFailPost s t msg).session = s.session := by
      show (if s.aborted = true then s.session
        else updateItemInSession s.session t.itemId
          { status := some Status.error, errorMsg := some msg }) = s.session
      rw [if_pos ha]
    rw [hsess] at hii
    exact hii
  | requeue t hp hm => exact fun i hi _ => hi
  | abort hp ha2 =>
    rw [ha] at ha2
    exact absurd ha2 (by decide)
  | stopDeleteCache name hp ha2 hc hd => exact fun i hi _ => hi
  | finishRun hp ha2 hq hr hb =>
    rw [ha] at ha2
    exact absurd ha2 (by decide)

/-- Witness for C3 at the concrete stopped run: the item loading after the
stop-path cache deletion was already loading before it. -/
theorem c3_no_new_loading_after_abort_witness :
    ({ id := "1-0", originalFileName := "q.txt", question := "Q", answer := "",
       status := Status.loading } : BatchFileItem) ∈ stF3.session.items := by
  have h := c3_no_new_loading_after_abort cfgA stF3 Event.stopDeleteCache stF4
    (Step.stopDeleteCache stF3 "caches/abc" (Or.inr (by decide)) (by decide)
      (by decide) (by decide))
    (by decide)
  exact h _ (by decide) (by decide)

/-- Counterexample to C3 as stated: in the concrete run reusing the handle
caches/abc, the user stop deletes the cache immediately after the abort
signal, while the Generate execution of item 1-0 is still outstanding
(running is nonempty and the item is still loading), so teardown is not
sequenced after the scheduler drains. -/
theorem c3_counterexample :
    Reachable cfgA stF0 stF4 ∧ stF4.teardownCalls = 1 ∧
    stF4.running = [tktA0] ∧ stF4.cacheName = some "caches/abc" ∧
    stF4.session.items.map (fun i => i.status) = [Status.loading] :=
  ⟨reach_stF4, by decide, by decide, by decide, by decide⟩

/-- C9 amended: saveLocalBatchSession is invoked by a step exactly when that
step is a Generate success and cancellation has not been observed, and it
then saves the session updated with the success; failures, including a final
error after retry exhaustion, are never followed by a save. -/
theorem c9_save_only_on_success (cfg : RunConfig) (s : RunState) (e : Event)
    (s2 : RunState) (h : Step cfg s e s2) :
    s2.saveCalls =
      (if isGenerateOk e && !s.aborted then s.saveCalls + 1 else s.saveCalls) ∧
    (∀ t ans u, e = Event.generateOk t ans u → s.aborted = false →
      s2.savedSessions = s2.session :: s.savedSessions) := by
  cases h with
  | prepDeleteOld hp hw hc => exact ⟨rfl, fun t ans u heq => by cases heq⟩
  | prepCreateOk name hp hw hc => exact ⟨rfl, fun t ans u heq => by cases heq⟩
  | prepCreateFail hp hw hc => exact ⟨rfl, fun t ans u heq => by cases heq⟩
  | prepWarmup hp hcr => exact ⟨rfl, fun t ans u heq => by cases heq⟩
  | startScheduling hp ha hw => exact ⟨rfl, fun t ans u heq => by cases heq⟩
  | dispatch t rest hp ha hq hroom => exact ⟨rfl, fun t2 ans u heq => by cases heq⟩
  | dispatchAborted t rest hp ha hq hroom =>
    exact ⟨rfl, fun t2 ans u heq => by cases heq⟩
  | generateOk t ans u hp hm =>
    constructor
    · show (if s.aborted = true then s.saveCalls else s.saveCalls + 1) =
        (if isGenerateOk (Event.generateOk t ans u) && !s.aborted then
          s.saveCalls + 1 else s.saveCalls)
      by_cases habort : s.aborted = true
      · rw [if_pos habort, habort]
        rfl
      · have ha2 : s.aborted = false := by
          revert habort
          cases s.aborted <;> simp
        rw [if_neg habort, ha2]
        rfl
    · intro t2 ans2 u2 heq hab
      cases heq
      show (if s.aborted = true then s.savedSessions
        else updateItemInSession s.session t.itemId
          { status := some Status.success, answer := some ans,
            tokenUsage := some u } :: s.savedSessions) = _
      rw [if_neg (by rw [hab]; exact Bool.false_ne_true)]
      rfl
  | generateFail t msg hp hm => exact ⟨rfl, fun t2 ans u heq => by cases heq⟩
  | requeue t hp hm => exact ⟨rfl, fun t2 ans u heq => by cases heq⟩
  | abort hp ha => exact ⟨rfl, fun t ans u heq => by cases heq⟩
  | stopDeleteCache name hp ha hc hd => exact ⟨rfl, fun t ans u heq => by cases heq⟩
  | finishRun hp ha hq hr hb => exact ⟨rfl, fun t ans u heq => by cases heq⟩

/-- Witness for C9 at the concrete successful Generate step. -/
theorem c9_save_only_on_success_witness :
    stC1.saveCalls = 1 ∧ stC1.savedSessions = [stC1.session] := by
  have h := c9_save_only_on_success cfgA stA2
    (Event.generateOk tktA0 "the answer" { prompt := 10, candidates := 20 }) stC1
    (Step.generateOk stA2 tktA0 "the answer" { prompt := 10, candidates := 20 }
      (by decide) (by decide))
  constructor
  · rw [h.1]
    decide
  · have h2 := h.2 tktA0 "the answer" { prompt := 10, candidates := 20 } rfl (by decide)
    rw [h2]
    rfl

/-- Counterexample to C9 as stated: the concrete one-item run whose Generate
call fails on all six attempts drains normally with the item in terminal
error, yet saveLocalBatchSession was never called during the whole run. -/
theorem c9_counterexample :
    Reachable cfgA stA0 stK19 ∧ stK19.phase = Phase.done ∧
    stK19.session.items.map (fun i => i.status) = [Status.error] ∧
    stK19.saveCalls = 0 ∧ stK19.savedSessions = [] :=
  ⟨reach_stK19, by decide, by decide, by decide, by decide⟩

/-- C4 amended: within a run on a session with nodup item ids, while
cancellation has not been observed, the terminal count of the session can
decrease only across a dispatch step that re-dispatches an item whose status
was error (a retry or a re-run of a previously failed item), and then by
exactly one. -/
theorem c4_decrease_only_on_error_redispatch (cfg : RunConfig)
    (sess : BatchSession) (cache0 : Option String) (ready0 : Bool)
    (s : RunState) (e : Event) (s2 : RunState)
    (hreach : Reachable cfg (initRunState sess cache0 ready0) s)
    (hnodup : (sess.items.map (fun i => i.id)).Nodup)
    (hstep : Step cfg s e s2) (ha : s.aborted = false)
    (hdec : completedCountOf s2.session.items < completedCountOf s.session.items) :
    ∃ t, e = Event.dispatch t ∧
      (∀ i ∈ s.session.items, i.id = t.itemId → i.status = Status.error) ∧
      completedCountOf s.session.items = completedCountOf s2.session.items + 1 := by
  have hinv : Inv0 cfg sess s :=
    reachable_inv0 cfg sess cache0 ready0 s hnodup hreach
  have hnditems : (s.session.items.map (fun i => i.id)).Nodup := by
    rw [hinv.itemIds]
    exact hnodup
  cases hstep with
  | prepDeleteOld hp hw hc => exact absurd hdec (lt_irrefl _)
  | prepCreateOk name hp hw hc => exact absurd hdec (lt_irrefl _)
  | prepCreateFail hp hw hc => exact absurd hdec (lt_irrefl _)
  | prepWarmup hp hcr => exact absurd hdec (lt_irrefl _)
  | startScheduling hp ha2 hw => exact absurd hdec (lt_irrefl _)
  | dispatchAborted t rest hp ha2 hq hroom => exact absurd hdec (lt_irrefl _)
  | requeue t hp hm2 => exact absurd hdec (lt_irrefl _)
  | abort hp ha2 => exact absurd hdec (lt_irrefl _)
  | stopDeleteCache name hp ha2 hc hd => exact absurd hdec (lt_irrefl _)
  | finishRun hp ha2 hq hr hb => exact absurd hdec (lt_irrefl _)
  | generateOk t ans u hp hm2 =>
    exfalso
    have hge : completedCountOf s.session.items ≤
        completedCountOf (s.session.items.map
          (fun item => if item.id = t.itemId then applyUpdates item
            { status := some Status.success, answer := some ans,
              tokenUsage := some u } else item)) := by
      apply completedCount_le_map
      intro i _ hterm
      by_cases hid : i.id = t.itemId
      · rw [if_pos hid]
        rfl
      · rw [if_neg hid]
        exact hterm
    have hdec2 : completedCountOf (s.session.items.map
        (fun item => if item.id = t.itemId then applyUpdates item
          { status := some Status.success, answer := some ans,
            tokenUsage := some u } else item)) <
        completedCountOf s.session.items := hdec
    omega
  | generateFail t msg hp hm2 =>
    exfalso
    have hsess : (generateFailPost s t msg).session =
        updateItemInSession s.session t.itemId
          { status := some Status.error, errorMsg := some msg } := by
      show (if s.aborted = true then s.session
        else updateItemInSession s.session t.itemId
          { status := some Status.error, errorMsg := some msg }) = _
      rw [if_neg (by rw [ha]; exact Bool.false_ne_true)]
    rw [hsess] at hdec
    have hge : completedCountOf s.session.items ≤
        completedCountOf (s.session.items.map
          (fun item => if item.id = t.itemId then applyUpdates item
            { status := some Status.error, errorMsg := some msg } else item)) := by
      apply completedCount_le_map
      intro i _ hterm
      by_cases hid : i.id = t.itemId
      · rw [if_pos hid]
        rfl
      · rw [if_neg hid]
        exact hterm
    have hdec2 : completedCountOf (s.session.items.map
        (fun item => if item.id = t.itemId then applyUpdates item
          { status := some Status.error, errorMsg := some msg } else item)) <
        completedCountOf s.session.items := hdec
    omega
  | dispatch t rest hp ha2 hq hroom =>
    refine ⟨t, rfl, ?_⟩
    by_cases hmem : t.itemId ∈ s.session.items.map (fun i => i.id)
    · obtain ⟨j, hj, hjid⟩ := List.mem_map.mp hmem
      have hstat : j.status = Status.pending ∨ j.status = Status.error :=
        hinv.queueNotLoading ha t
          (Or.inl (by rw [hq]; exact List.mem_cons_self t rest)) j hj hjid
      have hcount := completedCount_map_update s.session.items t.itemId
        { status := some Status.loading } hnditems j hj hjid
      have hterm2 : isTerminal ((applyUpdates j
          { status := some Status.loading }).status) = false := rfl
      rw [hterm2] at hcount
      simp only [Bool.false_eq_true, if_false] at hcount
      have hdec2 : completedCountOf (s.session.items.map
          (fun item => if item.id = t.itemId then applyUpdates item
            { status := some Status.loading } else item)) <
          completedCountOf s.session.items := hdec
      rcases hstat with hjp | hje
      · exfalso
        rw [hjp] at hcount
        have hterm3 : isTerminal Status.pending = false := rfl
        rw [hterm3] at hcount
        simp only [Bool.false_eq_true, if_false] at hcount
        omega
      · have hterm3 : isTerminal j.status = true := by rw [hje]; rfl
        rw [if_pos hterm3] at hcount
        constructor
        · intro i2 hi2 hid2
          have : i2 = j := eq_of_nodup_map hnditems hi2 hj (hid2.trans hjid.symm)
          rw [this]
          exact hje
        · show completedCountOf s.session.items =
            completedCountOf (s.session.items.map
              (fun item => if item.id = t.itemId then applyUpdates item
                { status := some Status.loading } else item)) + 1
          omega
    · exfalso
      have heq : s.session.items.map
          (fun item => if item.id = t.itemId then applyUpdates item
            { status := some Status.loading } else item) = s.session.items :=
        map_update_of_not_mem s.session.items t.itemId _ hmem
      have hdec2 : completedCountOf (s.session.items.map
          (fun item => if item.id = t.itemId then applyUpdates item
            { status := some Status.loading } else item)) <
          completedCountOf s.session.items := hdec
      rw [heq] at hdec2
      exact absurd hdec2 (lt_irrefl _)

/-- Witness for C4 at the concrete decreasing step: re-dispatching the failed
item 1-0 is the only way the terminal count drops, and it drops by one. -/
theorem c4_decrease_only_on_error_redispatch_witness :
    ∃ t, Event.dispatch tktA1 = Event.dispatch t ∧
      (∀ i ∈ stA4.session.items, i.id = t.itemId → i.status = Status.error) ∧
      completedCountOf stA4.session.items =
        completedCountOf stA5.session.items + 1 :=
  c4_decrease_only_on_error_redispatch cfgA sessA none false stA4
    (Event.dispatch tktA1) stA5 reach_stA4 (by decide)
    (Step.dispatch stA4 tktA1 [] (by decide) (by decide) (by decide) (by decide))
    (by decide) (by decide)

/-- Counterexample to C4 as stated: in the concrete one-item run, without any
cancellation, the terminal count goes from 1 back down to 0 when the failed
item is re-dispatched for its retry. -/
theorem c4_counterexample :
    Reachable cfgA stA0 stA4 ∧ Reachable cfgA stA0 stA5 ∧
    stA5.aborted = false ∧
    completedCountOf stA4.session.items = 1 ∧
    completedCountOf stA5.session.items = 0 :=
  ⟨reach_stA4, reach_stA5, by decide, by decide, by decide⟩

/-- C6 amended: for every run started on a session with nodup item ids that
contains no stale loading items (true of freshly imported sessions), the
number of items simultaneously in status loading never exceeds the configured
concurrency bound; stale loading items left behind by a stopped run are not
re-dispatched and can push the raw count above the bound. -/
theorem c6_loading_bounded (cfg : RunConfig) (sess : BatchSession)
    (cache0 : Option String) (ready0 : Bool) (s : RunState)
    (hnodup : (sess.items.map (fun i => i.id)).Nodup)
    (hnoload : ∀ i ∈ sess.items, i.status ≠ Status.loading)
    (h : Reachable cfg (initRunState sess cache0 ready0) s) :
    loadingCountOf s.session.items ≤ cfg.concurrency :=
  (reachable_invClean cfg sess cache0 ready0 s hnodup hnoload h).loadingBound

/-- Witness for C6 at the concrete run with one item loading and
concurrency 1. -/
theorem c6_loading_bounded_witness :
    loadingCountOf stA2.session.items ≤ cfgA.concurrency :=
  c6_loading_bounded cfgA sessA none false stA2 (by decide) (by decide) reach_stA2

/-- Counterexample to C6 as stated: stopping a concurrency-1 run leaves item
2-0 loading in the session (state stD3, reachable); the run button becomes
available again since isFinished is false, and a second concurrency-1 run on
that session dispatches item 2-1, after which two items are simultaneously in
status loading. -/
theorem c6_counterexample :
    Reachable cfgA stD0 stD3 ∧
    Reachable cfgA (initRunState stD3.session none false) stE2 ∧
    cfgA.concurrency = 1 ∧
    loadingCountOf stD3.session.items = 1 ∧
    loadingCountOf stE2.session.items = 2 :=
  ⟨reach_stD3, reach_stE2, by decide, by decide, by decide⟩

/-- Warm-up bookkeeping: once a run that created its own cache leaves the
preparation phase, the warm-up wait has completed; the created handle exists
from creation on. -/
theorem reachable_created_warm (cfg : RunConfig) (sess : BatchSession)
    (cache0 : Option String) (ready0 : Bool) (s : RunState)
    (h : Reachable cfg (initRunState sess cache0 ready0) s) :
    (s.createdInRun = true → cfg.withNewCache = true) ∧
    (s.createdInRun = true → s.cacheName.isSome = true) ∧
    ((s.phase = Phase.scheduling ∨ s.phase = Phase.done) →
      s.createdInRun = true → s.cacheReady = true) := by
  induction h with
  | refl =>
    refine ⟨?_, ?_, ?_⟩ <;> intro hcr
    · have h2 : false = true := hcr
      exact absurd h2 (by decide)
    · have h2 : false = true := hcr
      exact absurd h2 (by decide)
    · intro h2
      have h3 : false = true := h2
      exact absurd h3 (by decide)
  | step s1 s2 e hreach hstep ih =>
    cases hstep with
    | prepDeleteOld hp hw hc => exact ⟨ih.1, ih.2.1, fun hph hcr => ih.2.2 hph hcr⟩
    | prepCreateOk name hp hw hc =>
      refine ⟨fun _ => hw, fun _ => rfl, ?_⟩
      intro hph _
      rcases hph with hph | hph <;> exact absurd (hp.symm.trans hph) (by decide)
    | prepCreateFail hp hw hc =>
      refine ⟨ih.1, ih.2.1, ?_⟩
      intro hph _
      rcases hph with hph | hph
      · have h2 : Phase.failed = Phase.scheduling := hph
        exact absurd h2 (by decide)
      · have h2 : Phase.failed = Phase.done := hph
        exact absurd h2 (by decide)
    | prepWarmup hp hcr => exact ⟨ih.1, ih.2.1, fun _ _ => rfl⟩
    | startScheduling hp ha hw =>
      refine ⟨ih.1, ih.2.1, ?_⟩
      intro _ hcr
      exact hw (ih.1 hcr)
    | dispatch t rest hp ha hq hroom =>
      exact ⟨ih.1, ih.2.1, fun _ hcr => ih.2.2 (Or.inl hp) hcr⟩
    | dispatchAborted t rest hp ha hq hroom =>
      exact ⟨ih.1, ih.2.1, fun _ hcr => ih.2.2 (Or.inl hp) hcr⟩
    | generateOk t ans u hp hm2 =>
      exact ⟨ih.1, ih.2.1, fun _ hcr => ih.2.2 (Or.inl hp) hcr⟩
    | generateFail t msg hp hm2 =>
      exact ⟨ih.1, ih.2.1, fun _ hcr => ih.2.2 (Or.inl hp) hcr⟩
    | requeue t hp hm2 =>
      exact ⟨ih.1, ih.2.1, fun _ hcr => ih.2.2 (Or.inl hp) hcr⟩
    | abort hp ha => exact ⟨ih.1, ih.2.1, fun hph hcr => ih.2.2 hph hcr⟩
    | stopDeleteCache name hp ha hc hd =>
      exact ⟨ih.1, ih.2.1, fun hph hcr => ih.2.2 hph hcr⟩
    | finishRun hp ha hq hr hb =>
      exact ⟨ih.1, ih.2.1, fun _ hcr => ih.2.2 (Or.inl hp) hcr⟩

/-- C7 amended: for a run that created its own cache (context file path), a
Generate call can only be dispatched after the CreateCache call resolved and
the five second warm-up wait elapsed: at every dispatch step of such a run
the created handle exists and the warm-up has completed. For runs reusing a
pre-existing handle, the handle was created before the run started, but no
warm-up is enforced (the economy panel path activates the handle without any
warm-up wait). -/
theorem c7_generate_only_after_warmup (cfg : RunConfig) (sess : BatchSession)
    (cache0 : Option String) (ready0 : Bool) (s : RunState) (t : Ticket)
    (s2 : RunState)
    (hreach : Reachable cfg (initRunState sess cache0 ready0) s)
    (hstep : Step cfg s (Event.dispatch t) s2)
    (hcr : s.createdInRun = true) :
    s.cacheReady = true ∧ s.cacheName.isSome = true := by
  have hw := reachable_created_warm cfg sess cache0 ready0 s hreach
  cases hstep with
  | dispatch t2 rest hp ha hq hroom => exact ⟨hw.2.2 (Or.inl hp) hcr, hw.2.1 hcr⟩

/-- Witness for C7 at the concrete context-file run: the dispatch from stH3
happens with the cache created and warmed up. -/
theorem c7_generate_only_after_warmup_witness :
    stH3.cacheReady = true ∧ stH3.cacheName.isSome = true :=
  c7_generate_only_after_warmup cfgH sessA none false stH3 tktA0
    (dispatchPost stH3 tktA0 []) reach_stH3
    (Step.dispatch stH3 tktA0 [] (by decide) (by decide) (by decide) (by decide))
    (by decide)

/-- Counterexample to C7 as stated: a run reusing the handle caches/panel
created by the economy panel (handleCreateCache in part_003 sets the cache
active with no warm-up wait) issues its first Generate call while no warm-up
for that handle has ever elapsed. -/
theorem c7_counterexample :
    Reachable cfgA stG0 stG2 ∧ stG2.generateCalls = 1 ∧
    stG0.cacheName = some "caches/panel" ∧ stG2.cacheReady = false ∧
    stG2.session.cacheNameUsed = some "caches/panel" :=
  ⟨reach_stG2, by decide, by decide, by decide, by decide⟩

/-- Bookkeeping for failed initialization: during preparation and after an
initialization failure nothing has been dispatched, the session is untouched,
and a run whose handle was never created has performed no teardown. -/
theorem c8_frozen (cfg : RunConfig) (sess : BatchSession)
    (cache0 : Option String) (ready0 : Bool) (s : RunState)
    (h : Reachable cfg (initRunState sess cache0 ready0) s) :
    (s.phase = Phase.prep ∨ s.phase = Phase.failed →
      s.session = sess ∧ s.queue = [] ∧ s.running = [] ∧ s.backoff = [] ∧
      s.generateCalls = 0) ∧
    (s.cacheName = none → s.teardownCalls = 0) ∧
    (s.phase = Phase.failed → s.cacheName = none) := by
  induction h with
  | refl =>
    refine ⟨fun _ => ⟨rfl, rfl, rfl, rfl, rfl⟩, fun _ => rfl, ?_⟩
    intro hf
    have h2 : Phase.prep = Phase.failed := hf
    exact absurd h2 (by decide)
  | step s1 s2 e hreach hstep ih =>
    cases hstep with
    | prepDeleteOld hp hw hc =>
      exact ⟨fun _ => ih.1 (Or.inl hp), ih.2.1, fun _ => hc⟩
    | prepCreateOk name hp hw hc =>
      refine ⟨fun _ => ih.1 (Or.inl hp), ?_, ?_⟩
      · intro hcn
        cases hcn
      · intro hf
        exact absurd (hp.symm.trans hf) (by decide)
    | prepCreateFail hp hw hc =>
      exact ⟨fun _ => ih.1 (Or.inl hp), ih.2.1, fun _ => hc⟩
    | prepWarmup hp hcr =>
      refine ⟨fun _ => ih.1 (Or.inl hp), ih.2.1, ?_⟩
      intro hf
      exact absurd (hp.symm.trans hf) (by decide)
    | startScheduling hp ha hw =>
      refine ⟨?_, ih.2.1, ?_⟩
      · intro hph
        rcases hph with hph | hph
        · have h2 : Phase.scheduling = Phase.prep := hph
          exact absurd h2 (by decide)
        · have h2 : Phase.scheduling = Phase.failed := hph
          exact absurd h2 (by decide)
      · intro hf
        have h2 : Phase.scheduling = Phase.failed := hf
        exact absurd h2 (by decide)
    | dispatch t rest hp ha hq hroom =>
      refine ⟨?_, ih.2.1, ?_⟩
      · intro hph
        rcases hph with hph | hph <;> exact absurd (hp.symm.trans hph) (by decide)
      · intro hf
        exact absurd (hp.symm.trans hf) (by decide)
    | dispatchAborted t rest hp ha hq hroom =>
      refine ⟨?_, ih.2.1, ?_⟩
      · intro hph
        rcases hph with hph | hph <;> exact absurd (hp.symm.trans hph) (by decide)
      · intro hf
        exact absurd (hp.symm.trans hf) (by decide)
    | generateOk t ans u hp hm2 =>
      refine ⟨?_, ih.2.1, ?_⟩
      · intro hph
        rcases hph with hph | hph <;> exact absurd (hp.symm.trans hph) (by decide)
      · intro hf
        exact absurd (hp.symm.trans hf) (by decide)
    | generateFail t msg hp hm2 =>
      refine ⟨?_, ih.2.1, ?_⟩
      · intro hph
        rcases hph with hph | hph <;> exact absurd (hp.symm.trans hph) (by decide)
      · intro hf
        exact absurd (hp.symm.trans hf) (by decide)
    | requeue t hp hm2 =>
      refine ⟨?_, ih.2.1, ?_⟩
      · intro hph
        rcases hph with hph | hph <;> exact absurd (hp.symm.trans hph) (by decide)
      · intro hf
        exact absurd (hp.symm.trans hf) (by decide)
    | abort hp ha =>
      exact ⟨fun hph => ih.1 hph, ih.2.1, fun hf => ih.2.2 hf⟩
    | stopDeleteCache name hp ha hc hd =>
      refine ⟨fun hph => ih.1 hph, ?_, fun hf => ih.2.2 hf⟩
      intro hcn
      have hcn2 : s1.cacheName = none := hcn
      rw [hc] at hcn2
      cases hcn2
    | finishRun hp ha hq hr hb =>
      refine ⟨?_, ?_, ?_⟩
      · intro hph
        rcases hph with hph | hph
        · have h2 : Phase.done = Phase.prep := hph
          exact absurd h2 (by decide)
        · have h2 : Phase.done = Phase.failed := hph
          exact absurd h2 (by decide)
      · intro hcn
        have hcn2 : s1.cacheName = none := hcn
        show (if cfg.autoDelete && s1.cacheName.isSome then s1.teardownCalls + 1
          else s1.teardownCalls) = 0
        rw [hcn2]
        simp only [Option.isSome_none, Bool.and_false, if_false]
        exact ih.2.1 hcn2
      · intro hf
        have h2 : Phase.done = Phase.failed := hf
        exact absurd h2 (by decide)

/-- C8: when cache creation fails, the run is dead before any scheduling:
the session is untouched (so every item keeps its pending status), no
Generate call was ever issued, no teardown of the run cache is attempted
(none exists), and no further step of the run can fire. -/
theorem c8_prep_failure_fatal (cfg : RunConfig) (sess : BatchSession)
    (cache0 : Option String) (ready0 : Bool) (s : RunState)
    (h : Reachable cfg (initRunState sess cache0 ready0) s)
    (hfail : s.phase = Phase.failed) :
    s.session = sess ∧ s.queue = [] ∧ s.running = [] ∧ s.generateCalls = 0 ∧
    s.teardownCalls = 0 ∧
    ((∀ i ∈ sess.items, i.status = Status.pending) →
      ∀ i ∈ s.session.items, i.status = Status.pending) ∧
    (∀ e s2, ¬ Step cfg s e s2) := by
  obtain ⟨hfroz, htear, hfcn⟩ := c8_frozen cfg sess cache0 ready0 s h
  obtain ⟨hsess, hq, hr, hb, hg⟩ := hfroz (Or.inr hfail)
  refine ⟨hsess, hq, hr, hg, htear (hfcn hfail), ?_, ?_⟩
  · intro hpend i hi
    rw [hsess] at hi
    exact hpend i hi
  · intro e s2 hstep
    cases hstep with
    | prepDeleteOld hp hw hc => exact absurd (hfail.symm.trans hp) (by decide)
    | prepCreateOk name hp hw hc => exact absurd (hfail.symm.trans hp) (by decide)
    | prepCreateFail hp hw hc => exact absurd (hfail.symm.trans hp) (by decide)
    | prepWarmup hp hcr => exact absurd (hfail.symm.trans hp) (by decide)
    | startScheduling hp ha hw => exact absurd (hfail.symm.trans hp) (by decide)
    | dispatch t rest hp ha hq2 hroom =>
      exact absurd (hfail.symm.trans hp) (by decide)
    | dispatchAborted t rest hp ha hq2 hroom =>
      exact absurd (hfail.symm.trans hp) (by decide)
    | generateOk t ans u hp hm2 => exact absurd (hfail.symm.trans hp) (by decide)
    | generateFail t msg hp hm2 => exact absurd (hfail.symm.trans hp) (by decide)
    | requeue t hp hm2 => exact absurd (hfail.symm.trans hp) (by decide)
    | abort hp ha =>
      rcases hp with hp | hp <;> exact absurd (hfail.symm.trans hp) (by decide)
    | stopDeleteCache name hp ha hc hd =>
      rcases hp with hp | hp <;> exact absurd (hfail.symm.trans hp) (by decide)
    | finishRun hp ha hq2 hr2 hb2 => exact absurd (hfail.symm.trans hp) (by decide)

/-- Witness for C8 at the concrete failed cache creation. -/
theorem c8_prep_failure_fatal_witness :
    stI1.session = sessA ∧ stI1.generateCalls = 0 ∧ stI1.teardownCalls = 0 ∧
    (∀ i ∈ stI1.session.items, i.status = Status.pending) := by
  have h := c8_prep_failure_fatal cfgH sessA none false stI1 reach_stI1 (by decide)
  exact ⟨h.1, h.2.2.2.1, h.2.2.2.2.1, h.2.2.2.2.2.1 (by decide)⟩

/-- C5 amended: for every run that drains normally (no cancellation) from a
session with nodup item ids, no stale loading items, a consistent aggregate
and totalFiles equal to the item count, every item that ends the run in
status error was dispatched exactly maxRetries + 1 = 6 times, and the run
ends with isFinished = true. Under cancellation an item can end the run in
error after fewer dispatches. -/
theorem c5_error_items_used_all_attempts (cfg : RunConfig) (sess : BatchSession)
    (cache0 : Option String) (ready0 : Bool) (s : RunState)
    (hnodup : (sess.items.map (fun i => i.id)).Nodup)
    (hnoload : ∀ i ∈ sess.items, i.status ≠ Status.loading)
    (hsi : SessionInv sess) (htot : sess.totalFiles = sess.items.length)
    (h : Reachable cfg (initRunState sess cache0 ready0) s)
    (hdone : s.phase = Phase.done) :
    (∀ i ∈ s.session.items, i.status = Status.error →
      s.attempts i.id = maxRetries + 1) ∧
    s.session.isFinished = true := by
  have hinv := reachable_inv0 cfg sess cache0 ready0 s hnodup h
  have hcl := reachable_invClean cfg sess cache0 ready0 s hnodup hnoload h
  obtain ⟨hqe, hre, hbe, hab⟩ := hinv.doneState hdone
  have hst := hcl.statusTickets hab (Or.inr hdone)
  have herrpart : ∀ i ∈ s.session.items, i.status = Status.error →
      s.attempts i.id = maxRetries + 1 := by
    intro i hii herr
    rcases (hst i hii).2.2.1 herr with ⟨te, hteqb, _, _⟩ | ⟨h6, _⟩
    · exfalso
      rcases hteqb with hte | hte
      · rw [hqe] at hte
        cases hte
      · rw [hbe] at hte
        cases hte
    · exact h6
  refine ⟨herrpart, ?_⟩
  have hterm : ∀ i ∈ s.session.items,
      (i.status == Status.success || i.status == Status.error) = true := by
    intro i hii
    cases hstat : i.status with
    | pending =>
      obtain ⟨tq, htq, _⟩ := (hst i hii).1 hstat
      rw [hqe] at htq
      cases htq
    | loading =>
      obtain ⟨tr, htr, _⟩ := (hst i hii).2.1 hstat
      rw [hre] at htr
      cases htr
    | success => rfl
    | error => rfl
  have hlen : completedCountOf s.session.items = s.session.items.length := by
    show (s.session.items.filter
      (fun i => i.status == Status.success || i.status == Status.error)).length =
      s.session.items.length
    rw [List.filter_eq_self.mpr hterm]
  obtain ⟨hc, hf⟩ := reachable_sessionInv cfg sess cache0 ready0 s h hsi
  have hlens : s.session.items.length = sess.items.length := by
    have h2 := congrArg List.length hinv.itemIds
    simpa using h2
  have htot2 : s.session.totalFiles = s.session.items.length := by
    rw [hinv.totalFiles, htot, hlens]
  rw [hf, hc, hlen, htot2]
  exact beq_self_eq_true _

/-- Witness for C5 at the concrete six-failure run: item 1-0 ends the drained
run in error after exactly six dispatches, and the run is finished. -/
theorem c5_error_items_used_all_attempts_witness :
    stK19.attempts "1-0" = maxRetries + 1 ∧ stK19.session.isFinished = true := by
  have h := c5_error_items_used_all_attempts cfgA sessA none false stK19
    (by decide) (by decide) (by constructor <;> decide) (by decide)
    reach_stK19 (by decide)
  refine ⟨?_, h.2⟩
  exact h.1
    { id := "1-0", originalFileName := "q.txt", question := "Q", answer := "",
      status := Status.error, errorMsg := some "503 overloaded" }
    (by decide) (by decide)

/-- Counterexample to C5 as stated: when the run is cancelled right after the
first failure, item 1-0 ends the run with final status error although only
one dispatch attempt was ever made for it, not maxRetries + 1 = 6. -/
theorem c5_counterexample :
    Reachable cfgA stA0 stB2 ∧ stB2.aborted = true ∧
    stB2.session.items.map (fun i => i.status) = [Status.error] ∧
    stB2.attempts "1-0" = 1 ∧ maxRetries + 1 = 6 :=
  ⟨reach_stB2, by decide, by decide, by decide, by decide⟩

end BatchEngine
